import Mathlib

/-!
Verification of the chunked-upload core of the `ain` repository.

The development shallowly embeds the four cooperating JavaScript components:

* `UploadProgressManager` (api/server/services/WebSocket, in the unnamed
  router/WebSocket source file): the in-memory progress bus holding the
  `uploadSessions` map and the per-user `clients` map, with broadcast fan-out.
* `ChunkedUploadManager` (api/server/services/Files/ChunkedUpload.js):
  init, uploadChunk, assembleFile, resumeUpload, cancelUpload, validateChunks.
* `ProcessingPipelineManager` (api/server/services/Files/ProcessingPipeline.js):
  weighted stage list and aggregated progress.
* `ErrorRecoveryManager` (api/server/services/Files/ErrorRecovery.js):
  classification, retry bookkeeping and backoff.

Modelling conventions:

* JavaScript objects whose fields may be absent are embedded as structures
  with `Option` fields, `none` standing for `undefined`.  Reading a property
  of `undefined` (for example `session.receivedChunks.has(i)` when
  `receivedChunks` was never set) raises a `TypeError`; this is embedded as
  the structured error `JsError.typeErrorUndefined`.
* `throw new Error(msg)` sites are embedded as structured `JsError`
  constructors; `jsMessage` recovers the JavaScript message string, which is
  what `ErrorRecoveryManager.categorizeError` inspects by substring.
* Mutations performed before a throw persist in JavaScript, so every
  stateful operation returns `SysState × Except JsError α`: the state
  reflects all mutations made up to the point of a throw.
* `Buffer`s are byte lists (`List Nat`); MD5 (an external crypto library call) is an explicit function parameter `hash`.
* JavaScript numbers used for progress values and delays are embedded as
  `ℚ`.  Division by zero yields `NaN` in JavaScript and `0` in `ℚ`; the only
  place this arises (`resumeUpload` with `totalChunks = 0`) is noted inline
  and no theorem depends on the value.
* Timestamps (`Date.now()`) and `Math.random()` draws are explicit
  parameters (`now`, `rand`).
* `setTimeout`/`setInterval` callbacks (retry execution, deferred session
  deletion, hourly sweeps) are embedded as separate system operations that
  may be interleaved at any point.
-/

deriving instance DecidableEq for Except

namespace Ain

/-! ### Association-list helpers (JavaScript `Map` semantics) -/

def alookup {α β : Type} [DecidableEq α] (k : α) : List (α × β) → Option β
  | [] => none
  | (k2, v) :: rest => if k = k2 then some v else alookup k rest

/-- `Map.set`: replace the binding if present, otherwise append. -/
def aupdate {α β : Type} [DecidableEq α] (k : α) (v : β) : List (α × β) → List (α × β)
  | [] => [(k, v)]
  | (k2, v2) :: rest => if k = k2 then (k, v) :: rest else (k2, v2) :: aupdate k v rest

/-- `Map.delete`. -/
def aremove {α β : Type} [DecidableEq α] (k : α) : List (α × β) → List (α × β)
  | [] => []
  | (k2, v2) :: rest => if k = k2 then rest else (k2, v2) :: aremove k rest

/-- JavaScript `Set.add`: insert if absent, keeping insertion order. -/
def setAdd (i : Nat) (s : List Nat) : List Nat := if i ∈ s then s else s ++ [i]

def listPrefixOf : List Char → List Char → Bool
  | [], _ => true
  | _ :: _, [] => false
  | a :: as, b :: bs => a = b && listPrefixOf as bs

def listInfixOf : List Char → List Char → Bool
  | needle, [] => listPrefixOf needle []
  | needle, b :: bs => listPrefixOf needle (b :: bs) || listInfixOf needle bs

/-- Case-sensitive substring test (`String.includes`), used on lowercased strings. -/
def strContains (hay needle : String) : Bool := listInfixOf needle.toList hay.toList

def charToLower (c : Char) : Char :=
  if c.toNat ≥ 65 && c.toNat ≤ 90 then Char.ofNat (c.toNat + 32) else c

/-- `String.prototype.toLowerCase`, restricted to ASCII (all error messages
appearing in the sources are ASCII). -/
def strToLower (s : String) : String := String.mk (s.toList.map charToLower)

/-! ### Errors

Each `throw` site of the sources is one constructor; `jsMessage` is the
JavaScript `error.message` string (apostrophes and quotes of the Node
runtime messages are omitted). -/

inductive JsError where
  | sessionNotFound
  | invalidChunkIndex
  | hashMismatch (chunkIndex : Int)
  | missingChunks (missing : List Nat)
  | fileTooLarge
  | sizeMismatch
  | enoent (path : String)
  | typeErrorUndefined (field : String)
deriving Repr, DecidableEq

def jsMessage : JsError → String
  | .sessionNotFound => "Upload session not found"
  | .invalidChunkIndex => "Invalid chunk index"
  | .hashMismatch i => "Chunk " ++ toString i ++ " hash mismatch"
  | .missingChunks l => "Missing chunks: " ++ String.intercalate ", " (l.map toString)
  | .fileTooLarge => "File too large. Maximum size: 1000MB"
  | .sizeMismatch => "Assembled file size mismatch"
  | .enoent p => "ENOENT: no such file or directory, open " ++ p
  | .typeErrorUndefined f => "Cannot read properties of undefined (reading " ++ f ++ ")"

/-! ### Data model -/

/-- Request metadata built by the `POST /chunked/init` route handler. -/
structure Metadata where
  fileName : String := ""
  size : Nat := 0
  ftype : Option String := none
  toolResource : Option String := none
deriving Repr, DecidableEq

/-- The metadata object `initializeChunkedUpload` passes to
`startUploadSession`: the spread `{...metadata, totalChunks, chunkSize}`
(embedded nested rather than flattened). -/
structure InitMeta where
  metadata : Metadata
  totalChunks : Nat
  chunkSize : Nat
deriving Repr, DecidableEq

/-- WebSocket messages `broadcastToUser` serializes (payload fields not
needed by any claim are omitted). -/
inductive WsMessage where
  | uploadStarted (fileId : String) (metadata : InitMeta)
  | uploadProgress (fileId : String) (progress : ℚ) (stage : String)
  | uploadCompleted (fileId : String) (filePath : String) (size : Nat)
  | uploadError (fileId : String) (error : String) (retryable : Bool)
deriving Repr, DecidableEq

/-- One `ws.send` that actually happened: `user` is the key under which the
receiving socket is registered in `clients` (always the `userId` argument of
the enclosing `broadcastToUser` call). -/
structure Delivery where
  user : String
  sink : Nat
  msg : WsMessage
deriving Repr, DecidableEq

/-- The record `startUploadSession` stores in `uploadSessions`.  The last
five fields are the properties `ChunkedUploadManager` expects on the object
`getSession` hands it; `startUploadSession` never sets them, so they start
as `none` (JavaScript `undefined`). -/
structure SessionRec where
  userId : String
  fileId : String
  startTime : Nat
  status : String
  progress : ℚ
  metadata : InitMeta
  chunks : List (Nat × Bool)
  totalChunks : Nat
  completedChunks : Nat
  stage : Option String := none
  lastUpdate : Option Nat := none
  endTime : Option Nat := none
  error : Option String := none
  retryable : Option Bool := none
  result : Option (String × Nat) := none
  receivedChunks : Option (List Nat) := none
  chunkHashes : Option (List (Nat × String)) := none
  tempDir : Option String := none
  lastActivity : Option Nat := none
deriving Repr, DecidableEq

/-- The session object `initializeChunkedUpload` constructs and returns
(but never stores in any registry). -/
structure SessionLocal where
  fileId : String
  userId : String
  tempDir : String
  metadata : Metadata
  totalChunks : Nat
  receivedChunks : List Nat
  chunkHashes : List (Nat × String)
  startTime : Nat
  lastActivity : Nat
deriving Repr, DecidableEq

/-- One pipeline stage. -/
structure Stage where
  name : String
  weight : ℚ
  description : String
  status : String
  startTime : Option Nat := none
  endTime : Option Nat := none
  duration : Option Int := none
  progress : ℚ := 0
  error : Option String := none
deriving Repr, DecidableEq

structure StageHistoryEntry where
  stage : String
  startTime : Option Nat
  endTime : Option Nat
  duration : Option Int
deriving Repr, DecidableEq

structure PipelineError where
  stage : String
  error : String
  timestamp : Nat
  recoverable : Bool
deriving Repr, DecidableEq

structure Pipeline where
  fileId : String
  userId : String
  metadata : Metadata
  stages : List Stage
  currentStage : String
  stageProgress : ℚ
  overallProgress : ℚ
  startTime : Nat
  stageStartTime : Nat
  stageHistory : List StageHistoryEntry
  errors : List PipelineError
  warnings : List String
  endTime : Option Nat := none
  totalDuration : Option Int := none
deriving Repr, DecidableEq

structure ErrorHistoryEntry where
  error : String
  etype : String
  timestamp : Nat
deriving Repr, DecidableEq

structure RetryInfo where
  attempts : Nat
  startTime : Nat
  errorHistory : List ErrorHistoryEntry
  lastError : Option String := none
  lastErrorTime : Option Nat := none
deriving Repr, DecidableEq

/-- Recovery actions returned by `handleError`. -/
inductive RecoveryAction where
  | retry (delay : Int) (attempt : Nat) (maxAttempts : Nat) (errorType : String)
  | failure (attempts : Nat) (error : String) (errorHistory : List ErrorHistoryEntry)
deriving Repr, DecidableEq

/-- The whole single-process state: the progress bus (`clients`,
`uploadSessions` plus the instrumented `broadcasts`/`deliveries` traces),
the chunk file system, the pipeline registry and the retry registry. -/
structure SysState where
  clients : List (String × List Nat)
  uploadSessions : List (String × SessionRec)
  broadcasts : List (String × WsMessage)
  deliveries : List Delivery
  fs : List (String × List Nat)
  pipelines : List (String × Pipeline)
  retryAttempts : List (String × RetryInfo)
deriving Repr, DecidableEq

def emptyState : SysState :=
  { clients := [], uploadSessions := [], broadcasts := [], deliveries := [],
    fs := [], pipelines := [], retryAttempts := [] }

/-! ### Configuration constants (constructor defaults of the sources) -/

def chunkSize : Nat := 1024 * 1024
def maxChunks : Nat := 1000
def maxRetries : Nat := 3
def baseDelay : ℚ := 1000
def maxDelay : ℚ := 30000
def jitterRate : ℚ := 1 / 10
def uploadsPath : String := "uploads"

/-! ### UploadProgressManager (the progress bus) -/

/-- `broadcastToUser`: `broadcasts` records every invocation; `deliveries`
records the individual `ws.send`s, one per socket registered under `userId`
(all modelled sockets are in the OPEN state, so none is dropped). -/
def broadcastToUser (st : SysState) (userId : String) (message : WsMessage) : SysState :=
  let sinks := (alookup userId st.clients).getD []
  { st with
    broadcasts := st.broadcasts ++ [(userId, message)],
    deliveries := st.deliveries ++ sinks.map (fun s => { user := userId, sink := s, msg := message }) }

def getSessionStatus (st : SysState) (fileId : String) : Option SessionRec :=
  alookup fileId st.uploadSessions

/-- `startUploadSession`: note the top-level `totalChunks: 0` and
`completedChunks: 0` of the stored record. -/
def startUploadSession (now : Nat) (st : SysState) (fileId userId : String)
    (metadata : InitMeta) : SysState :=
  let r : SessionRec :=
    { userId := userId, fileId := fileId, startTime := now, status := "uploading",
      progress := 0, metadata := metadata, chunks := [], totalChunks := 0,
      completedChunks := 0 }
  let st2 := { st with uploadSessions := aupdate fileId r st.uploadSessions }
  broadcastToUser st2 userId (.uploadStarted fileId metadata)

def updateProgress (now : Nat) (st : SysState) (fileId : String) (progress : ℚ)
    (stage : String) : SysState :=
  match getSessionStatus st fileId with
  | none => st
  | some s =>
    let p := min 1 (max 0 progress)
    let s2 := { s with progress := p, stage := some stage, lastUpdate := some now }
    let st2 := { st with uploadSessions := aupdate fileId s2 st.uploadSessions }
    broadcastToUser st2 s2.userId (.uploadProgress fileId p stage)

def updateChunkProgress (now : Nat) (st : SysState) (fileId : String) (chunkIndex : Nat)
    (totalChunks : Nat) (completed : Bool) : SysState :=
  match getSessionStatus st fileId with
  | none => st
  | some s =>
    let s2 := { s with
      totalChunks := totalChunks,
      completedChunks := if completed then s.completedChunks + 1 else s.completedChunks,
      chunks := if completed then aupdate chunkIndex true s.chunks else s.chunks }
    let st2 := { st with uploadSessions := aupdate fileId s2 st.uploadSessions }
    let progress : ℚ := (s2.completedChunks : ℚ) / (totalChunks : ℚ)
    updateProgress now st2 fileId progress "uploading"

def completeUpload (now : Nat) (st : SysState) (fileId : String) (filePath : String)
    (size : Nat) : SysState :=
  match getSessionStatus st fileId with
  | none => st
  | some s =>
    let s2 := { s with
      status := "completed", progress := 1,
      result := some (filePath, size), endTime := some now }
    let st2 := { st with uploadSessions := aupdate fileId s2 st.uploadSessions }
    broadcastToUser st2 s2.userId (.uploadCompleted fileId filePath size)

def handleUploadError (st : SysState) (fileId : String) (errMsg : String)
    (retryable : Bool) : SysState :=
  match getSessionStatus st fileId with
  | none => st
  | some s =>
    let s2 := { s with status := "error", error := some errMsg, retryable := some retryable }
    let st2 := { st with uploadSessions := aupdate fileId s2 st.uploadSessions }
    broadcastToUser st2 s2.userId (.uploadError fileId errMsg retryable)

/-- `handleConnection`: register an authenticated socket under its user. -/
def handleConnection (st : SysState) (userId : String) (sinkId : Nat) : SysState :=
  let sinks := (alookup userId st.clients).getD []
  { st with clients := aupdate userId (sinks ++ [sinkId]) st.clients }

/-- The `ws.on close` handler. -/
def closeConnection (st : SysState) (userId : String) (sinkId : Nat) : SysState :=
  match alookup userId st.clients with
  | none => st
  | some sinks =>
    let sinks2 := sinks.filter (fun s => s != sinkId)
    if sinks2 = [] then { st with clients := aremove userId st.clients }
    else { st with clients := aupdate userId sinks2 st.clients }

/-- `cleanupOldSessions` (hourly sweep, 24h TTL). -/
def cleanupOldSessions (now : Nat) (st : SysState) : SysState :=
  let keep := fun (p : String × SessionRec) => decide (now - p.2.startTime ≤ 24 * 60 * 60 * 1000)
  { st with uploadSessions := st.uploadSessions.filter keep }

/-! ### ProcessingPipelineManager -/

/-- The `this.stages` weight/description table of the constructor. -/
def stagesTable (name : String) : Option (ℚ × String) :=
  if name = "upload" then some (1/10, "File upload")
  else if name = "validation" then some (1/20, "File validation")
  else if name = "processing" then some (3/10, "File processing")
  else if name = "ocr" then some (1/5, "OCR processing")
  else if name = "stt" then some (3/20, "Speech-to-text")
  else if name = "embedding" then some (1/10, "Vector embedding")
  else if name = "storage" then some (1/20, "Storage save")
  else if name = "cleanup" then some (1/20, "Cleanup")
  else none

/-- `buildStageList`.  The JavaScript default `?.weight || 0.1` would also
replace a zero table weight, but the table holds no zero weights. -/
def buildStageList (requiredStages : List String) : List Stage :=
  let baseStages := ["upload", "validation", "processing"]
  let allStages := baseStages ++ requiredStages ++ ["storage", "cleanup"]
  allStages.map (fun stageName =>
    { name := stageName,
      weight := match stagesTable stageName with | some (w, _) => w | none => 1/10,
      description := match stagesTable stageName with | some (_, d) => d | none => stageName,
      status := "pending", progress := 0 })

def initializePipeline (now : Nat) (st : SysState) (fileId userId : String)
    (metadata : Metadata) (requiredStages : List String) : SysState :=
  let pipeline : Pipeline :=
    { fileId := fileId, userId := userId, metadata := metadata,
      stages := buildStageList requiredStages, currentStage := "upload",
      stageProgress := 0, overallProgress := 0, startTime := now,
      stageStartTime := now, stageHistory := [], errors := [], warnings := [] }
  let st2 := { st with pipelines := aupdate fileId pipeline st.pipelines }
  updateProgress now st2 fileId 0 "pipeline_started"

/-- The accumulation loop of `updateOverallProgress`: returns
`(totalWeight, completedWeight)`. -/
def overallTotals (stages : List Stage) : ℚ × ℚ :=
  stages.foldl
    (fun acc stage =>
      (acc.1 + stage.weight,
       if stage.status = "completed" then acc.2 + stage.weight
       else if stage.status = "running" then acc.2 + stage.weight * stage.progress
       else acc.2))
    (0, 0)

/-- `updateOverallProgress`: recomputes the aggregate from scratch; no
comparison with the previous `overallProgress` is made. -/
def updateOverallProgress (pipeline : Pipeline) : Pipeline :=
  let t := overallTotals pipeline.stages
  { pipeline with overallProgress := if t.1 > 0 then t.2 / t.1 else 0 }

/-- `pipeline.stages.find(s => s.name === stageName)`. -/
def findStage (stageName : String) (stages : List Stage) : Option Stage :=
  stages.find? (fun s => s.name == stageName)

/-- Mutating the object `find` returned updates the first matching element
of the stage array in place. -/
def updateFirstStage (stageName : String) (f : Stage → Stage) : List Stage → List Stage
  | [] => []
  | s :: rest => if s.name = stageName then f s :: rest else s :: updateFirstStage stageName f rest

def startStage (now : Nat) (st : SysState) (fileId stageName : String) : SysState :=
  match alookup fileId st.pipelines with
  | none => st
  | some pipeline =>
    match findStage stageName pipeline.stages with
    | none => st
    | some _ =>
      let stages := updateFirstStage stageName
        (fun s => { s with status := "running", startTime := some now, progress := 0 })
        pipeline.stages
      let p2 := updateOverallProgress { pipeline with
        stages := stages, currentStage := stageName, stageStartTime := now, stageProgress := 0 }
      let st2 := { st with pipelines := aupdate fileId p2 st.pipelines }
      updateProgress now st2 fileId p2.overallProgress stageName

def updateStageProgress (now : Nat) (st : SysState) (fileId stageName : String)
    (progress : ℚ) : SysState :=
  match alookup fileId st.pipelines with
  | none => st
  | some pipeline =>
    match findStage stageName pipeline.stages with
    | none => st
    | some stage =>
      if stage.status ≠ "running" then st
      else
        let p := min 1 (max 0 progress)
        let stages := updateFirstStage stageName (fun s => { s with progress := p }) pipeline.stages
        let p2 := updateOverallProgress { pipeline with stages := stages, stageProgress := p }
        let st2 := { st with pipelines := aupdate fileId p2 st.pipelines }
        updateProgress now st2 fileId p2.overallProgress stageName

/-- `completeStage`.  With a `null` `startTime`, the JavaScript subtraction
`endTime - startTime` coerces `null` to `0`. -/
def completeStage (now : Nat) (st : SysState) (fileId stageName : String) : SysState :=
  match alookup fileId st.pipelines with
  | none => st
  | some pipeline =>
    match findStage stageName pipeline.stages with
    | none => st
    | some stage =>
      let duration : Int := (now : Int) - ((stage.startTime.getD 0 : Nat) : Int)
      let stages := updateFirstStage stageName
        (fun s => { s with status := "completed", endTime := some now,
                           duration := some duration, progress := 1 })
        pipeline.stages
      let p2 := updateOverallProgress { pipeline with
        stages := stages,
        stageHistory := pipeline.stageHistory ++
          [{ stage := stageName, startTime := stage.startTime,
             endTime := some now, duration := some duration }] }
      let st2 := { st with pipelines := aupdate fileId p2 st.pipelines }
      updateProgress now st2 fileId p2.overallProgress stageName

/-! ### ErrorRecoveryManager -/

def categorizeError (errMsg : String) : String :=
  let message := strToLower errMsg
  if strContains message "network" || strContains message "timeout" then "network"
  else if strContains message "size" || strContains message "limit" then "size"
  else if strContains message "format" || strContains message "type" then "format"
  else if strContains message "permission" || strContains message "access" then "permission"
  else if strContains message "storage" || strContains message "disk" then "storage"
  else if strContains message "authentication" || strContains message "auth" then "auth"
  else "unknown"

def isRetryableError (errMsg : String) (errorType : String) : Bool :=
  let nonRetryableTypes := ["format", "permission", "auth"]
  let nonRetryableMessages :=
    ["unsupported file type", "file too large", "invalid file format",
     "permission denied", "authentication failed"]
  if nonRetryableTypes.contains errorType then false
  else
    let message := strToLower errMsg
    !(nonRetryableMessages.any (fun m => strContains message m))

/-- `calculateBackoffDelay`; `rand` is the `Math.random()` draw, a value in
`[0, 1)`. -/
def calculateBackoffDelay (rand : ℚ) (attempt : Nat) : Int :=
  let exponentialDelay : ℚ := baseDelay * 2 ^ (attempt - 1)
  let delay : ℚ := min exponentialDelay maxDelay
  let jitterAmount : ℚ := delay * jitterRate * rand
  ⌊delay + jitterAmount⌋

/-- `getRetryInfo`: inserts a fresh record when the key is absent. -/
def getRetryInfoState (now : Nat) (st : SysState) (fileId : String) : SysState × RetryInfo :=
  match alookup fileId st.retryAttempts with
  | some info => (st, info)
  | none =>
    let info : RetryInfo := { attempts := 0, startTime := now, errorHistory := [] }
    ({ st with retryAttempts := aupdate fileId info st.retryAttempts }, info)

/-- `handleFinalFailure`: `cleanup(fileId)` deletes the retry record, then a
non-retryable `upload_error` is emitted. -/
def handleFinalFailure (st : SysState) (fileId : String) (errMsg : String)
    (retryInfo : RetryInfo) : SysState × RecoveryAction :=
  let st2 := { st with retryAttempts := aremove fileId st.retryAttempts }
  let st3 := handleUploadError st2 fileId errMsg false
  (st3, .failure retryInfo.attempts errMsg retryInfo.errorHistory)

/-- `handleError` (the scheduled `executeRetry` timer is a separate system
operation). -/
def handleError (now : Nat) (rand : ℚ) (st : SysState) (fileId : String)
    (errMsg : String) : SysState × RecoveryAction :=
  let pair := getRetryInfoState now st fileId
  let errorType := categorizeError errMsg
  let retryInfo : RetryInfo := { pair.2 with
    attempts := pair.2.attempts + 1,
    lastError := some errMsg,
    lastErrorTime := some now,
    errorHistory := pair.2.errorHistory ++
      [{ error := errMsg, etype := errorType, timestamp := now }] }
  let st2 := { pair.1 with retryAttempts := aupdate fileId retryInfo pair.1.retryAttempts }
  let retryable := isRetryableError errMsg errorType
  if !retryable || retryInfo.attempts ≥ maxRetries then
    handleFinalFailure st2 fileId errMsg retryInfo
  else
    let delay := calculateBackoffDelay rand retryInfo.attempts
    let st3 := handleUploadError st2 fileId errMsg retryable
    (st3, .retry delay retryInfo.attempts maxRetries errorType)

/-! ### ChunkedUploadManager -/

/-- `Math.ceil(size / chunkSize)`.  Both operands are far below `2^53` and
the divisor is a power of two, so the double-precision computation is
exact. -/
def ceilDiv (a b : Nat) : Nat := (a + b - 1) / b

def chunkFileName (i : Int) : String := "chunk_" ++ toString i

/-- The successful result of `uploadChunk`. -/
structure ChunkUploadResult where
  success : Bool
  alreadyReceived : Bool := false
  progress : Option ℚ := none
  receivedChunks : Option Nat := none
  totalChunks : Option Nat := none
deriving Repr, DecidableEq

/-- `initializeChunkedUpload`.  The constructed `session` object is returned
to the caller but stored in no registry: only `startUploadSession`
registers state, and it stores its own record (see `startUploadSession`).
The recursive `fs.mkdir` is not modelled (directories are implicit). -/
def initializeChunkedUpload (now : Nat) (st : SysState) (fileId userId : String)
    (metadata : Metadata) : SysState × Except JsError SessionLocal :=
  let tempDir := uploadsPath ++ "/temp/chunks/" ++ userId
  let session : SessionLocal :=
    { fileId := fileId, userId := userId, tempDir := tempDir, metadata := metadata,
      totalChunks := ceilDiv metadata.size chunkSize, receivedChunks := [],
      chunkHashes := [], startTime := now, lastActivity := now }
  if metadata.size > chunkSize * maxChunks then
    (st, .error .fileTooLarge)
  else
    let st2 := startUploadSession now st fileId userId
      { metadata := metadata, totalChunks := session.totalChunks, chunkSize := chunkSize }
    (st2, .ok session)

/-- `getSession` delegates to the progress bus. -/
def getSession (st : SysState) (fileId : String) : Option SessionRec :=
  getSessionStatus st fileId

/-- `uploadChunk`.  `chunkHash = none` stands for an absent (or falsy)
client digest.  Field reads on `undefined` raise `TypeError`s; note that
when `receivedChunks` is present but `chunkHashes` is not, the
`receivedChunks.add` mutation and the chunk file write have already
happened when `chunkHashes.set` throws. -/
def uploadChunk (hash : List Nat → String) (now : Nat) (st : SysState) (fileId : String)
    (chunkIndex : Int) (chunkData : List Nat) (chunkHash : Option String) :
    SysState × Except JsError ChunkUploadResult :=
  match getSession st fileId with
  | none => (st, .error .sessionNotFound)
  | some session =>
    if chunkIndex ≥ (session.totalChunks : Int) || chunkIndex < 0 then
      (st, .error .invalidChunkIndex)
    else
      match session.receivedChunks with
      | none => (st, .error (.typeErrorUndefined "has"))
      | some received =>
        if chunkIndex.toNat ∈ received then
          (st, .ok { success := true, alreadyReceived := true })
        else
          let actualHash := hash chunkData
          let mismatch := match chunkHash with
            | some h => decide (actualHash ≠ h)
            | none => false
          if mismatch then (st, .error (.hashMismatch chunkIndex))
          else
            match session.tempDir with
            | none => (st, .error (.typeErrorUndefined "tempDir"))
            | some dir =>
              let chunkPath := dir ++ "/" ++ chunkFileName chunkIndex
              let st2 := { st with fs := aupdate chunkPath chunkData st.fs }
              let received2 := setAdd chunkIndex.toNat received
              match session.chunkHashes with
              | none =>
                let s2 := { session with receivedChunks := some received2 }
                ({ st2 with uploadSessions := aupdate fileId s2 st2.uploadSessions },
                 .error (.typeErrorUndefined "set"))
              | some hashes =>
                let s2 := { session with
                  receivedChunks := some received2,
                  chunkHashes := some (aupdate chunkIndex.toNat actualHash hashes),
                  lastActivity := some now }
                let st3 := { st2 with uploadSessions := aupdate fileId s2 st2.uploadSessions }
                let st4 := updateChunkProgress now st3 fileId chunkIndex.toNat s2.totalChunks true
                (st4, .ok {
                  success := true,
                  progress := some ((received2.length : ℚ) / (s2.totalChunks : ℚ)),
                  receivedChunks := some received2.length,
                  totalChunks := some s2.totalChunks })

/-- The chunk-reading loop of `assembleFile` over indices
`0 … totalChunks-1`: accumulates the stream contents and emits an
`assembling` progress update per chunk.  `path.join` on an `undefined`
`tempDir` raises inside the first iteration. -/
def assembleFold (now : Nat) (fileId : String) (dir : Option String) (totalChunks : Nat) :
    List Nat → SysState → List Nat → SysState × Except JsError (List Nat)
  | [], st, acc => (st, .ok acc)
  | i :: rest, st, acc =>
    match dir with
    | none => (st, .error (.typeErrorUndefined "tempDir"))
    | some d =>
      let chunkPath := d ++ "/" ++ chunkFileName (i : Int)
      match alookup chunkPath st.fs with
      | none => (st, .error (.enoent chunkPath))
      | some chunkData =>
        let assemblyProgress : ℚ := ((i : ℚ) + 1) / (totalChunks : ℚ)
        let st2 := updateProgress now st fileId assemblyProgress "assembling"
        assembleFold now fileId dir totalChunks rest st2 (acc ++ chunkData)

/-- `cleanupChunks`: all errors are caught and only logged, so a session
with an `undefined` `tempDir` (where `fs.readdir` throws) leaves the state
unchanged.  `chunk_`-prefixed files under the directory are removed. -/
def cleanupChunks (st : SysState) (session : SessionRec) : SysState :=
  match session.tempDir with
  | none => st
  | some dir =>
    let pre := (dir ++ "/chunk_").toList
    { st with fs := st.fs.filter (fun kv => !(listPrefixOf pre kv.1.toList)) }

/-- `assembleFile`. -/
def assembleFile (now : Nat) (st : SysState) (fileId finalPath : String) :
    SysState × Except JsError (String × Nat) :=
  match getSession st fileId with
  | none => (st, .error .sessionNotFound)
  | some session =>
    match session.receivedChunks with
    | none => (st, .error (.typeErrorUndefined "size"))
    | some received =>
      if received.length ≠ session.totalChunks then
        let missing := (List.range session.totalChunks).filter (fun i => decide (i ∉ received))
        (st, .error (.missingChunks missing))
      else
        match assembleFold now fileId session.tempDir session.totalChunks
            (List.range session.totalChunks) st [] with
        | (st2, .error e) => (st2, .error e)
        | (st2, .ok bytes) =>
          let st3 := { st2 with fs := aupdate finalPath bytes st2.fs }
          if bytes.length ≠ session.metadata.metadata.size then
            (st3, .error .sizeMismatch)
          else
            let st4 := cleanupChunks st3 session
            let st5 := completeUpload now st4 fileId finalPath bytes.length
            (st5, .ok (finalPath, bytes.length))

/-- The per-index loop of `resumeUpload`: `path.join` on an `undefined`
`tempDir` throws (outside the try), a missing chunk file is skipped
(`fs.access` throws inside the try), and the `receivedChunks.add`
`TypeError` on an `undefined` set is swallowed by the same `catch` after
the index was already pushed to `existingChunks`. -/
def resumeFold (fsL : List (String × List Nat)) (dir : Option String) :
    List Nat → List Nat → Option (List Nat) →
    Except JsError (List Nat × Option (List Nat))
  | [], existing, received => .ok (existing, received)
  | i :: rest, existing, received =>
    match dir with
    | none => .error (.typeErrorUndefined "tempDir")
    | some d =>
      match alookup (d ++ "/" ++ chunkFileName (i : Int)) fsL with
      | none => resumeFold fsL dir rest existing received
      | some _ =>
        match received with
        | none => resumeFold fsL dir rest (existing ++ [i]) received
        | some r => resumeFold fsL dir rest (existing ++ [i]) (some (setAdd i r))

structure ResumeInfo where
  fileId : String
  totalChunks : Nat
  receivedChunks : List Nat
  missingChunks : List Nat
  progress : ℚ
deriving Repr, DecidableEq

/-- `resumeUpload`.  When `totalChunks = 0` the JavaScript `progress` is
`0/0 = NaN`; the `ℚ` embedding yields `0` and no theorem relies on it. -/
def resumeUpload (st : SysState) (fileId : String) : SysState × Except JsError ResumeInfo :=
  match getSession st fileId with
  | none => (st, .error .sessionNotFound)
  | some session =>
    match resumeFold st.fs session.tempDir (List.range session.totalChunks) []
        session.receivedChunks with
    | .error e => (st, .error e)
    | .ok (existing, received2) =>
      let s2 := { session with receivedChunks := received2 }
      let st2 := { st with uploadSessions := aupdate fileId s2 st.uploadSessions }
      (st2, .ok {
        fileId := fileId,
        totalChunks := session.totalChunks,
        receivedChunks := existing,
        missingChunks := (List.range session.totalChunks).filter
          (fun i => !(existing.contains i)),
        progress := (existing.length : ℚ) / (session.totalChunks : ℚ) })

/-- `cancelUpload`: purges chunk files and emits a non-retryable error, but
deletes nothing from `uploadSessions`. -/
def cancelUpload (st : SysState) (fileId : String) : SysState :=
  match getSession st fileId with
  | none => st
  | some session =>
    let st2 := cleanupChunks st session
    handleUploadError st2 fileId "Upload cancelled" false

/-- The per-index loop of `validateChunks` (errors propagate to the
enclosing catch, which returns `false`). -/
def validateFold (hash : List Nat → String) (fsL : List (String × List Nat))
    (session : SessionRec) : List Nat → Except JsError Bool
  | [] => .ok true
  | i :: rest =>
    match session.receivedChunks with
    | none => .error (.typeErrorUndefined "has")
    | some received =>
      if i ∉ received then validateFold hash fsL session rest
      else
        match session.tempDir with
        | none => .error (.typeErrorUndefined "tempDir")
        | some d =>
          match alookup (d ++ "/" ++ chunkFileName (i : Int)) fsL with
          | none => .error (.enoent (d ++ "/" ++ chunkFileName (i : Int)))
          | some chunkData =>
            let actualHash := hash chunkData
            match session.chunkHashes with
            | none => .error (.typeErrorUndefined "get")
            | some hashes =>
              match alookup i hashes with
              | none => validateFold hash fsL session rest
              | some expectedHash =>
                if actualHash ≠ expectedHash then .ok false
                else validateFold hash fsL session rest

/-- `validateChunks`: read-only; any thrown error is caught and yields
`false`. -/
def validateChunks (hash : List Nat → String) (st : SysState) (fileId : String) : Bool :=
  match getSession st fileId with
  | none => false
  | some session =>
    match validateFold hash st.fs session (List.range session.totalChunks) with
    | .ok b => b
    | .error _ => false

/-! ### System-level operations

The external entry points of the process: the `/chunked` router handlers,
WebSocket connect/close, the `executeRetry` timer callback, the deferred
session deletion of `completeUpload`, the hourly sweep, and direct
invocations of the recovery and pipeline managers (their methods are part
of the core API).  Internal helpers such as `updateChunkProgress` are not
operations: they are only reachable through these entry points. -/

inductive SysOp where
  | connect (userId : String) (sinkId : Nat)
  | closeConn (userId : String) (sinkId : Nat)
  | init (now : Nat) (fileId userId : String) (metadata : Metadata)
  | upload (now : Nat) (rand : ℚ) (fileId : String) (chunkIndex : Int)
      (chunkData : List Nat) (chunkHash : Option String)
  | resume (fileId : String)
  | complete (now : Nat) (rand : ℚ) (fileId : String) (finalPath : String)
      (toolResource : Option String)
  | cancel (fileId : String)
  | validate (fileId : String)
  | recoveryHandle (now : Nat) (rand : ℚ) (fileId : String) (errMsg : String)
  | executeRetry (now : Nat) (rand : ℚ) (fileId : String) (chunkedUpload : Bool)
  | pipelineInit (now : Nat) (fileId userId : String) (metadata : Metadata)
      (requiredStages : List String)
  | stageStart (now : Nat) (fileId stageName : String)
  | stageUpdate (now : Nat) (fileId stageName : String) (progress : ℚ)
  | stageComplete (now : Nat) (fileId stageName : String)
  | deleteSession (fileId : String)
  | sweepSessions (now : Nat)

/-- The `requiredStages` computation of the `POST /chunked/init` handler. -/
def routeRequiredStages (metadata : Metadata) : List String :=
  (if metadata.toolResource = some "ocr" then ["ocr"] else []) ++
  (if metadata.toolResource = some "file_search" then ["embedding"] else []) ++
  (if listPrefixOf "audio/".toList (metadata.ftype.getD "").toList then ["stt"] else [])

/-- One external operation.  Route handlers route thrown upload errors into
`ErrorRecoveryManager.handleError` exactly where the source does. -/
def stepOp (hash : List Nat → String) (st : SysState) : SysOp → SysState
  | .connect u s => handleConnection st u s
  | .closeConn u s => closeConnection st u s
  | .init now fileId userId metadata =>
    match initializeChunkedUpload now st fileId userId metadata with
    | (st2, .ok _) =>
      initializePipeline now st2 fileId userId metadata (routeRequiredStages metadata)
    | (st2, .error _) => st2
  | .upload now rand fileId chunkIndex chunkData chunkHash =>
    match uploadChunk hash now st fileId chunkIndex chunkData chunkHash with
    | (st2, .ok _) => st2
    | (st2, .error e) => (handleError now rand st2 fileId (jsMessage e)).1
  | .resume fileId => (resumeUpload st fileId).1
  | .complete now rand fileId finalPath toolResource =>
    let st1 := startStage now st fileId "processing"
    match assembleFile now st1 fileId finalPath with
    | (st2, .ok _) =>
      let st3 := completeStage now st2 fileId "processing"
      if toolResource = some "ocr" then startStage now st3 fileId "ocr"
      else if toolResource = some "file_search" then startStage now st3 fileId "embedding"
      else st3
    | (st2, .error e) => (handleError now rand st2 fileId (jsMessage e)).1
  | .cancel fileId => cancelUpload st fileId
  | .validate _ => st
  | .recoveryHandle now rand fileId errMsg => (handleError now rand st fileId errMsg).1
  | .executeRetry now rand fileId chunkedUpload =>
    let pair := getRetryInfoState now st fileId
    let st1 := updateProgress now pair.1 fileId 0 "retrying"
    if chunkedUpload then
      match resumeUpload st1 fileId with
      | (st2, .ok resumeInfo) =>
        if resumeInfo.missingChunks.length > 0 then
          updateProgress now st2 fileId resumeInfo.progress "resuming"
        else st2
      | (st2, .error e) => (handleError now rand st2 fileId (jsMessage e)).1
    else
      updateProgress now st1 fileId 0 "retrying"
  | .pipelineInit now fileId userId metadata requiredStages =>
    initializePipeline now st fileId userId metadata requiredStages
  | .stageStart now fileId stageName => startStage now st fileId stageName
  | .stageUpdate now fileId stageName progress => updateStageProgress now st fileId stageName progress
  | .stageComplete now fileId stageName => completeStage now st fileId stageName
  | .deleteSession fileId => { st with uploadSessions := aremove fileId st.uploadSessions }
  | .sweepSessions now => cleanupOldSessions now st

def runSys (hash : List Nat → String) (ops : List SysOp) (st : SysState) : SysState :=
  ops.foldl (stepOp hash) st

/-! ### Observation helpers -/

/-- The `progress` values of the `upload_progress` events emitted (broadcast)
for a file, in emission order. -/
def progressEmissions (st : SysState) (fileId : String) : List ℚ :=
  st.broadcasts.filterMap (fun bm => match bm.2 with
    | .uploadProgress f p _ => if f = fileId then some p else none
    | _ => none)

/-- The messages of the `upload_error` events emitted for a file. -/
def errorEmissions (st : SysState) (fileId : String) : List String :=
  st.broadcasts.filterMap (fun bm => match bm.2 with
    | .uploadError f e _ => if f = fileId then some e else none
    | _ => none)

/-- The stored attempt counter for a file (0 when no record exists). -/
def prevAttempts (st : SysState) (fileId : String) : Nat :=
  match alookup fileId st.retryAttempts with
  | some info => info.attempts
  | none => 0

/-- The capped exponential delay before jitter:
`min(baseDelay · 2^(attempt-1), maxDelay)`. -/
def nonJitteredDelay (attempt : Nat) : ℚ := min (baseDelay * 2 ^ (attempt - 1)) maxDelay

/-- Modelled from the spec: the aggregate progress formula of section 4.4,
`overallProgress = Σᵢ wᵢ·stageProgressᵢ / Σᵢ wᵢ` with `stageProgressᵢ = 1`
if completed, `stage.progress` if running, `0` otherwise (0 when the weight
sum is 0).  Used to compare the fold of the code against the words of the spec. -/
def specStageProgress (s : Stage) : ℚ :=
  if s.status = "completed" then 1 else if s.status = "running" then s.progress else 0

def specOverall (stages : List Stage) : ℚ :=
  let tw := (stages.map (fun s => s.weight)).sum
  if tw > 0 then (stages.map (fun s => s.weight * specStageProgress s)).sum / tw else 0

/-! ### Association-list lemmas -/

theorem alookup_aupdate_self {α β : Type} [DecidableEq α] (k : α) (v : β)
    (l : List (α × β)) : alookup k (aupdate k v l) = some v := by
  induction l with
  | nil => simp [alookup, aupdate]
  | cons hd tl ih =>
    by_cases h : k = hd.1
    · simp [alookup, aupdate, h]
    · simp [alookup, aupdate, h, ih]

theorem alookup_mem {α β : Type} [DecidableEq α] {k : α} {v : β} {l : List (α × β)}
    (h : alookup k l = some v) : (k, v) ∈ l := by
  induction l with
  | nil => simp [alookup] at h
  | cons hd tl ih =>
    obtain ⟨k2, v2⟩ := hd
    by_cases hk : k = k2
    · subst hk
      simp [alookup] at h
      simp [h]
    · simp [alookup, hk] at h
      exact List.mem_cons_of_mem _ (ih h)

theorem mem_aupdate {α β : Type} [DecidableEq α] {k : α} {v : β} {l : List (α × β)}
    {p : α × β} (h : p ∈ aupdate k v l) : p = (k, v) ∨ p ∈ l := by
  induction l with
  | nil =>
    simp [aupdate] at h
    exact Or.inl h
  | cons hd tl ih =>
    obtain ⟨k2, v2⟩ := hd
    by_cases hk : k = k2
    · subst hk
      simp [aupdate] at h
      rcases h with h | h
      · exact Or.inl h
      · exact Or.inr (List.mem_cons_of_mem _ h)
    · simp [aupdate, hk] at h
      rcases h with h | h
      · exact Or.inr (by simp [h])
      · rcases ih h with h2 | h2
        · exact Or.inl h2
        · exact Or.inr (List.mem_cons_of_mem _ h2)

theorem mem_aremove {α β : Type} [DecidableEq α] {k : α} {l : List (α × β)}
    {p : α × β} (h : p ∈ aremove k l) : p ∈ l := by
  induction l with
  | nil => simp [aremove] at h
  | cons hd tl ih =>
    obtain ⟨k2, v2⟩ := hd
    by_cases hk : k = k2
    · subst hk
      simp [aremove] at h
      exact List.mem_cons_of_mem _ h
    · simp [aremove, hk] at h
      rcases h with h | h
      · simp [h]
      · exact List.mem_cons_of_mem _ (ih h)

theorem alookup_eq_none_of_not_mem_keys {α β : Type} [DecidableEq α] {k : α}
    {l : List (α × β)} (h : k ∉ l.map Prod.fst) : alookup k l = none := by
  induction l with
  | nil => simp [alookup]
  | cons hd tl ih =>
    simp only [List.map_cons, List.mem_cons, not_or] at h
    simp [alookup, h.1, ih h.2]

theorem alookup_aremove_aupdate {α β : Type} [DecidableEq α] (k : α) (v : β)
    (l : List (α × β)) (hnd : (l.map Prod.fst).Nodup) :
    alookup k (aremove k (aupdate k v l)) = none := by
  induction l with
  | nil => simp [alookup, aupdate, aremove]
  | cons hd tl ih =>
    obtain ⟨k2, v2⟩ := hd
    simp only [List.map_cons, List.nodup_cons] at hnd
    by_cases hk : k = k2
    · subst hk
      simp [aupdate, aremove]
      exact alookup_eq_none_of_not_mem_keys hnd.1
    · simp [aupdate, aremove, hk, alookup]
      exact ih hnd.2

/-- `aremove k` deletes exactly the binding `aupdate k` just placed, so the
round trip only ever exposes original elements. -/
theorem mem_aremove_aupdate {α β : Type} [DecidableEq α] {k : α} {v : β}
    {l : List (α × β)} {p : α × β} (h : p ∈ aremove k (aupdate k v l)) :
    p ∈ l := by
  induction l with
  | nil => simp [aupdate, aremove] at h
  | cons hd tl ih =>
    obtain ⟨k2, v2⟩ := hd
    by_cases hk : k = k2
    · subst hk
      simp only [aupdate, if_pos rfl] at h
      simp only [aremove, if_pos rfl] at h
      exact List.mem_cons_of_mem _ h
    · simp only [aupdate, if_neg hk] at h
      simp only [aremove, if_neg hk, List.mem_cons] at h
      rcases h with h | h
      · simp [h]
      · exact List.mem_cons_of_mem _ (ih h)

/-- `aupdate` with the same key twice collapses to the outer update. -/
theorem aupdate_aupdate {α β : Type} [DecidableEq α] (k : α) (v v2 : β)
    (l : List (α × β)) : aupdate k v (aupdate k v2 l) = aupdate k v l := by
  induction l with
  | nil => simp [aupdate]
  | cons hd tl ih =>
    obtain ⟨k2, v3⟩ := hd
    by_cases hk : k = k2
    · subst hk
      simp [aupdate]
    · simp [aupdate, hk, ih]

/-! ### Claim C9 -/

/-- Claim C9: `initializeChunkedUpload` rejects a session exactly when
`metadata.size > chunkSize × maxChunks` (1048576 × 1000 bytes) by raising a
size-exceeded error before registering the session; size equal to the limit
is accepted and registered, size one above is rejected. -/
theorem c9_init_size_limit (now : Nat) (st : SysState) (fileId userId : String)
    (md : Metadata) :
    ((initializeChunkedUpload now st fileId userId md).2.isOk = true ↔
      md.size ≤ chunkSize * maxChunks) ∧
    (chunkSize * maxChunks < md.size →
      initializeChunkedUpload now st fileId userId md = (st, .error .fileTooLarge)) ∧
    (md.size ≤ chunkSize * maxChunks →
      (getSessionStatus (initializeChunkedUpload now st fileId userId md).1 fileId).isSome
        = true) ∧
    (initializeChunkedUpload now st fileId userId
        { size := chunkSize * maxChunks }).2.isOk = true ∧
    (initializeChunkedUpload now st fileId userId
        { size := chunkSize * maxChunks + 1 }).2.isOk = false ∧
    chunkSize * maxChunks = 1048576000 := by
  refine ⟨?_, ?_, ?_, ?_, ?_, by norm_num [chunkSize, maxChunks]⟩
  · by_cases h : md.size > chunkSize * maxChunks
    · have h2 : ¬ md.size ≤ chunkSize * maxChunks := by omega
      simp [initializeChunkedUpload, h, h2, Except.isOk, Except.toBool]
    · have h2 : md.size ≤ chunkSize * maxChunks := by omega
      simp [initializeChunkedUpload, h, h2, Except.isOk, Except.toBool]
  · intro h
    simp [initializeChunkedUpload, h]
  · intro h
    have h2 : ¬ md.size > chunkSize * maxChunks := by omega
    simp [initializeChunkedUpload, h2, startUploadSession, broadcastToUser,
      getSessionStatus, alookup_aupdate_self]
  · have h2 : ¬ (chunkSize * maxChunks > chunkSize * maxChunks) := by omega
    simp [initializeChunkedUpload, h2, Except.isOk, Except.toBool]
  · have h2 : chunkSize * maxChunks + 1 > chunkSize * maxChunks := by omega
    simp [initializeChunkedUpload, h2, Except.isOk, Except.toBool]

/-! ### Claim C1 -/

/-- After `initializeChunkedUpload` of a zero-byte file: every index of the
empty range `[0, 0)` has trivially been accepted. -/
def c1_stateZero : SysState :=
  (initializeChunkedUpload 0 emptyState "f0" "u0" { size := 0 }).1

/-- After `initializeChunkedUpload` of a 2 MiB file (`totalChunks = 2`). -/
def c1_stateTwo : SysState :=
  (initializeChunkedUpload 0 emptyState "f1" "u0" { size := 2097152 }).1

/-- Claim C1 (code bug): the claim says that once every index in
`[0, totalChunks)` is accepted, `assembleFile` produces the concatenation
(and a missing-chunks error otherwise).  In the code, `getSession` returns
the progress-bus record, whose `receivedChunks` is `undefined` and whose
`totalChunks` is `0`.  Evaluated at the failing inputs: for a zero-byte
file (all of `[0,0)` trivially accepted) `assembleFile` throws a
`TypeError` reading `.size` of `undefined` instead of producing the empty
output file, and for a 2-chunk file no chunk can ever be accepted because
`uploadChunk` rejects every index against `totalChunks = 0`. -/
theorem c1_assembleFile_never_assembles :
    (assembleFile 1 c1_stateZero "f0" "out/f0").2 = .error (.typeErrorUndefined "size") ∧
    alookup "out/f0" (assembleFile 1 c1_stateZero "f0" "out/f0").1.fs = none ∧
    (uploadChunk (fun _ => "00") 1 c1_stateTwo "f1" 0 [65] none).2
      = .error .invalidChunkIndex ∧
    (uploadChunk (fun _ => "00") 1 c1_stateTwo "f1" 1 [66] none).2
      = .error .invalidChunkIndex := by
  decide

/-! ### Claim C3 -/

/-- After `initializeChunkedUpload` of a 1 MiB file (`totalChunks = 1`). -/
def c3_state : SysState :=
  (initializeChunkedUpload 0 emptyState "f" "u" { size := 1048576 }).1

/-- Claim C3 (code bug): the claim says a mismatching client digest yields a
checksum-mismatch error, leaves the session unchanged and a re-upload with
the correct digest succeeds.  In the code the digest comparison is
unreachable: `uploadChunk` reads the progress-bus record (`totalChunks = 0`)
and throws `Invalid chunk index` for every index before hashing, both for a
mismatching digest (the modelled MD5 of `[65]` is `"aaaa"`, the client sent
`"deadbeef"`) and for the matching digest, so the re-upload cannot
succeed either.  The state is unchanged in both calls. -/
theorem c3_checksum_check_unreachable :
    uploadChunk (fun _ => "aaaa") 1 c3_state "f" 0 [65] (some "deadbeef")
      = (c3_state, .error .invalidChunkIndex) ∧
    uploadChunk (fun _ => "aaaa") 1 c3_state "f" 0 [65] (some "aaaa")
      = (c3_state, .error .invalidChunkIndex) := by
  decide

/-! ### Claim C10 -/

/-- A one-chunk session that has been cancelled. -/
def c10_state : SysState :=
  cancelUpload (initializeChunkedUpload 0 emptyState "fc" "u" { size := 1 }).1 "fc"

/-- Claim C10 counterexample: after `cancelUpload` of an existing session, a
subsequent `uploadChunk` does NOT fail with the session-not-found error the
claim requires — the session record is still registered (with status
`error`), and the call fails with `Invalid chunk index` instead. -/
theorem c10_counterexample :
    (uploadChunk (fun _ => "00") 2 c10_state "fc" 0 [65] none).2
      = .error .invalidChunkIndex ∧
    (uploadChunk (fun _ => "00") 2 c10_state "fc" 0 [65] none).2
      ≠ .error .sessionNotFound ∧
    (getSession c10_state "fc").isSome = true := by
  decide

/-- `uploadChunk` cannot fail with the session-not-found error when the
session lookup succeeds. -/
theorem uploadChunk_ne_notFound (hash : List Nat → String) (now : Nat) (st : SysState)
    (fileId : String) (idx : Int) (data : List Nat) (ch : Option String)
    (h : (getSession st fileId).isSome = true) :
    (uploadChunk hash now st fileId idx data ch).2 ≠ .error .sessionNotFound := by
  obtain ⟨s, hs⟩ := Option.isSome_iff_exists.mp h
  unfold uploadChunk
  rw [hs]
  dsimp only
  split
  · simp
  · split
    · simp
    · split
      · simp
      · split
        · simp
        · split
          · simp
          · split
            · simp
            · simp

/-- Claim C10 as amended: after `cancelUpload` on an existing session the
session record remains registered — with status `"error"`, error message
`"Upload cancelled"` and `retryable = false` — so a subsequent
`uploadChunk` does not fail with the session-not-found error (it fails with
an invalid-chunk-index error instead, since the stored record has `totalChunks = 0`). -/
theorem c10_amended (st : SysState) (fileId : String) (session : SessionRec)
    (h : getSession st fileId = some session) :
    ∃ s2 : SessionRec,
      getSession (cancelUpload st fileId) fileId = some s2 ∧
      s2.status = "error" ∧ s2.error = some "Upload cancelled" ∧
      s2.retryable = some false ∧
      ∀ (hash : List Nat → String) (now : Nat) (idx : Int) (data : List Nat)
        (ch : Option String),
        (uploadChunk hash now (cancelUpload st fileId) fileId idx data ch).2
          ≠ .error .sessionNotFound := by
  have hclean : getSessionStatus (cleanupChunks st session) fileId = some session := by
    unfold cleanupChunks
    cases session.tempDir <;> simpa [getSessionStatus] using h
  refine ⟨{ session with
            status := "error", error := some "Upload cancelled",
            retryable := some false }, ?_, rfl, rfl, rfl, ?_⟩
  · unfold cancelUpload
    rw [show getSession st fileId = some session from h]
    dsimp only
    unfold handleUploadError
    rw [hclean]
    simp [getSession, getSessionStatus, broadcastToUser, alookup_aupdate_self]
  · intro hash now idx data ch
    apply uploadChunk_ne_notFound
    unfold cancelUpload
    rw [show getSession st fileId = some session from h]
    dsimp only
    unfold handleUploadError
    rw [hclean]
    simp [getSession, getSessionStatus, broadcastToUser, alookup_aupdate_self]

/-- Witness for `c10_amended` at a concrete cancelled session. -/
theorem c10_amended_witness :
    (getSession c10_state "fc").isSome = true ∧
    (uploadChunk (fun _ => "ww") 3 c10_state "fc" 5 [1] none).2
      ≠ .error .sessionNotFound := by
  obtain ⟨s2, hs2, _, _, _, hne⟩ :=
    c10_amended (initializeChunkedUpload 0 emptyState "fc" "u" { size := 1 }).1 "fc"
      { userId := "u", fileId := "fc", startTime := 0, status := "uploading",
        progress := 0,
        metadata := { metadata := { size := 1 }, totalChunks := 1, chunkSize := 1048576 },
        chunks := [], totalChunks := 0, completedChunks := 0 }
      (by decide)
  exact ⟨by rw [show c10_state = cancelUpload
      (initializeChunkedUpload 0 emptyState "fc" "u" { size := 1 }).1 "fc" from rfl, hs2]; rfl,
    by exact hne (fun _ => "ww") 3 5 [1] none⟩

/-! ### Claim C2 -/

/-- When the session record `getSession` returns has `totalChunks = 0`,
`uploadChunk` rejects every index (`idx ≥ 0` hits `idx ≥ totalChunks`,
`idx < 0` hits the sign check) and leaves the state unchanged. -/
theorem uploadChunk_totalChunks_zero (hash : List Nat → String) (now : Nat)
    (st : SysState) (fileId : String) (idx : Int) (data : List Nat)
    (ch : Option String) (r : SessionRec) (hr : getSession st fileId = some r)
    (h0 : r.totalChunks = 0) :
    uploadChunk hash now st fileId idx data ch = (st, .error .invalidChunkIndex) := by
  unfold uploadChunk
  rw [hr]
  have hcond : (idx ≥ ((r.totalChunks : Nat) : Int) ∨ idx < 0) := by
    rw [h0]
    omega
  simp [hcond]

/-- When the session record `getSession` returns has no `receivedChunks`
property, `assembleFile` throws reading `.size` of `undefined` and leaves
the state unchanged. -/
theorem assembleFile_receivedChunks_undefined (now : Nat) (st : SysState)
    (fileId finalPath : String) (r : SessionRec)
    (hr : getSession st fileId = some r) (h0 : r.receivedChunks = none) :
    assembleFile now st fileId finalPath = (st, .error (.typeErrorUndefined "size")) := by
  unfold assembleFile
  rw [hr]
  dsimp only
  rw [h0]

/-- Claim C2: for every successfully initialized `fileId`, `getSession`
returns the progress-bus record created by `startUploadSession` — top-level
`totalChunks = 0`, no `receivedChunks` set, no `chunkHashes` map, no
`tempDir` — and not the session object `initializeChunkedUpload`
constructed and returned (that object has `totalChunks =
ceil(size/chunkSize)` and an empty received set).  In particular
`uploadChunk` compares the index against the `totalChunks = 0` of that record and
rejects every index, and `assembleFile` trips over the absent
`receivedChunks`. -/
theorem c2_getSession_returns_bus_record (now : Nat) (st : SysState)
    (fileId userId : String) (md : Metadata) (h : md.size ≤ chunkSize * maxChunks) :
    ∃ (r : SessionRec) (sessionLocal : SessionLocal),
      (initializeChunkedUpload now st fileId userId md).2 = .ok sessionLocal ∧
      getSession (initializeChunkedUpload now st fileId userId md).1 fileId = some r ∧
      r.totalChunks = 0 ∧ r.receivedChunks = none ∧ r.chunkHashes = none ∧
      r.tempDir = none ∧
      sessionLocal.totalChunks = ceilDiv md.size chunkSize ∧
      sessionLocal.receivedChunks = [] ∧
      (∀ (hash : List Nat → String) (now2 : Nat) (idx : Int) (data : List Nat)
          (ch : Option String),
        uploadChunk hash now2 (initializeChunkedUpload now st fileId userId md).1
            fileId idx data ch
          = ((initializeChunkedUpload now st fileId userId md).1,
             .error .invalidChunkIndex)) ∧
      (∀ (now2 : Nat) (fp : String),
        assembleFile now2 (initializeChunkedUpload now st fileId userId md).1 fileId fp
          = ((initializeChunkedUpload now st fileId userId md).1,
             .error (.typeErrorUndefined "size"))) := by
  have hgt : ¬ md.size > chunkSize * maxChunks := by omega
  have hses : getSession (initializeChunkedUpload now st fileId userId md).1 fileId
      = some { userId := userId, fileId := fileId, startTime := now,
               status := "uploading", progress := 0,
               metadata := { metadata := md, totalChunks := ceilDiv md.size chunkSize,
                             chunkSize := chunkSize },
               chunks := [], totalChunks := 0, completedChunks := 0 } := by
    simp [initializeChunkedUpload, hgt, startUploadSession, broadcastToUser,
      getSession, getSessionStatus, alookup_aupdate_self]
  have hok : (initializeChunkedUpload now st fileId userId md).2
      = .ok { fileId := fileId, userId := userId,
              tempDir := uploadsPath ++ "/temp/chunks/" ++ userId, metadata := md,
              totalChunks := ceilDiv md.size chunkSize, receivedChunks := [],
              chunkHashes := [], startTime := now, lastActivity := now } := by
    simp [initializeChunkedUpload, hgt]
  refine ⟨_, _, hok, hses, rfl, rfl, rfl, rfl, rfl, rfl, ?_, ?_⟩
  · intro hash now2 idx data ch
    exact uploadChunk_totalChunks_zero hash now2 _ fileId idx data ch _ hses rfl
  · intro now2 fp
    exact assembleFile_receivedChunks_undefined now2 _ fileId fp _ hses rfl

/-- Witness for `c2_getSession_returns_bus_record` at a concrete init. -/
theorem c2_witness :
    uploadChunk (fun _ => "h2") 9
        (initializeChunkedUpload 0 emptyState "f2w" "u2" { size := 5 }).1 "f2w" 0 [1, 2] none
      = ((initializeChunkedUpload 0 emptyState "f2w" "u2" { size := 5 }).1,
         .error .invalidChunkIndex) ∧
    assembleFile 9 (initializeChunkedUpload 0 emptyState "f2w" "u2" { size := 5 }).1
        "f2w" "out"
      = ((initializeChunkedUpload 0 emptyState "f2w" "u2" { size := 5 }).1,
         .error (.typeErrorUndefined "size")) := by
  obtain ⟨r, sl, _, _, _, _, _, _, _, _, hup, hasm⟩ :=
    c2_getSession_returns_bus_record 0 emptyState "f2w" "u2" { size := 5 }
      (by norm_num [chunkSize, maxChunks])
  exact ⟨hup (fun _ => "h2") 9 0 [1, 2] none, hasm 9 "out"⟩

/-! ### Claim C7 -/

/-- Claim C7: for every attempt `n ≥ 1` and every `Math.random()` draw in
`[0, 1)`, `calculateBackoffDelay` returns
`min(maxDelay, baseDelay · 2^(n-1))` plus a jitter in `[0, 0.1·capped)`,
the non-jittered delay doubles with each attempt while below the cap, and
it is monotonically non-decreasing in the attempt number. -/
theorem c7_backoff_delay (n : Nat) (hn : 1 ≤ n) (rand : ℚ) (h0 : 0 ≤ rand)
    (h1 : rand < 1) :
    nonJitteredDelay n ≤ (calculateBackoffDelay rand n : ℚ) ∧
    (calculateBackoffDelay rand n : ℚ)
      < nonJitteredDelay n + (1 / 10) * nonJitteredDelay n ∧
    (baseDelay * 2 ^ n ≤ maxDelay → nonJitteredDelay (n + 1) = 2 * nonJitteredDelay n) ∧
    (∀ m, n ≤ m → nonJitteredDelay n ≤ nonJitteredDelay m) := by
  have hDpos : (0 : ℚ) < nonJitteredDelay n := by
    unfold nonJitteredDelay baseDelay maxDelay
    apply lt_min
    · positivity
    · norm_num
  have hcalc : calculateBackoffDelay rand n
      = ⌊nonJitteredDelay n + nonJitteredDelay n * jitterRate * rand⌋ := rfl
  obtain ⟨D, hD⟩ : ∃ D : Nat, nonJitteredDelay n = (D : ℚ) := by
    refine ⟨min (1000 * 2 ^ (n - 1)) 30000, ?_⟩
    unfold nonJitteredDelay baseDelay maxDelay
    push_cast
    rfl
  have hJ0 : 0 ≤ nonJitteredDelay n * jitterRate * rand := by
    apply mul_nonneg (mul_nonneg (le_of_lt hDpos) (by norm_num [jitterRate])) h0
  have hJlt : nonJitteredDelay n * jitterRate * rand
      < (1 / 10) * nonJitteredDelay n := by
    have h2 : nonJitteredDelay n * jitterRate * rand
        < nonJitteredDelay n * jitterRate * 1 := by
      apply mul_lt_mul_of_pos_left h1
      exact mul_pos hDpos (by norm_num [jitterRate])
    calc nonJitteredDelay n * jitterRate * rand
        < nonJitteredDelay n * jitterRate * 1 := h2
      _ = (1 / 10) * nonJitteredDelay n := by unfold jitterRate; ring
  refine ⟨?_, ?_, ?_, ?_⟩
  · rw [hcalc, hD]
    have h2 : (D : Int) ≤ ⌊(D : ℚ) + (D : ℚ) * jitterRate * rand⌋ := by
      apply Int.le_floor.mpr
      push_cast
      rw [← hD]
      linarith [hJ0]
    calc ((D : Nat) : ℚ) = ((D : Int) : ℚ) := by push_cast; rfl
      _ ≤ _ := by exact_mod_cast h2
  · have h2 : ((calculateBackoffDelay rand n : Int) : ℚ)
        ≤ nonJitteredDelay n + nonJitteredDelay n * jitterRate * rand := by
      rw [hcalc]
      exact Int.floor_le _
    linarith [hJlt]
  · intro hcap
    have hsmall : baseDelay * 2 ^ (n - 1) ≤ maxDelay := by
      refine le_trans ?_ hcap
      apply mul_le_mul_of_nonneg_left _ (by norm_num [baseDelay])
      exact pow_le_pow_right₀ (by norm_num) (Nat.sub_le n 1)
    have hsub : n - 1 + 1 = n := Nat.succ_pred_eq_of_pos hn
    unfold nonJitteredDelay
    rw [show n + 1 - 1 = n from rfl, min_eq_left hcap, min_eq_left hsmall]
    calc baseDelay * 2 ^ n = baseDelay * 2 ^ (n - 1 + 1) := by rw [hsub]
      _ = 2 * (baseDelay * 2 ^ (n - 1)) := by rw [pow_succ]; ring
  · intro m hm
    unfold nonJitteredDelay
    apply min_le_min _ le_rfl
    apply mul_le_mul_of_nonneg_left _ (by norm_num [baseDelay])
    exact pow_le_pow_right₀ (by norm_num) (Nat.sub_le_sub_right hm 1)

/-- Witness for `c7_backoff_delay` at attempt 2 with draw `1/2`. -/
theorem c7_backoff_delay_witness :
    nonJitteredDelay 2 ≤ (calculateBackoffDelay (1 / 2) 2 : ℚ) ∧
    (calculateBackoffDelay (1 / 2) 2 : ℚ)
      < nonJitteredDelay 2 + (1 / 10) * nonJitteredDelay 2 :=
  ⟨(c7_backoff_delay 2 (by norm_num) (1 / 2) (by norm_num) (by norm_num)).1,
   (c7_backoff_delay 2 (by norm_num) (1 / 2) (by norm_num) (by norm_num)).2.1⟩

/-! ### Claim C6 -/

/-- `handleUploadError` never touches the retry registry. -/
theorem retryAttempts_handleUploadError (st : SysState) (fileId errMsg : String)
    (retryable : Bool) :
    (handleUploadError st fileId errMsg retryable).retryAttempts = st.retryAttempts := by
  unfold handleUploadError
  cases getSessionStatus st fileId <;> simp [broadcastToUser]

def c6s1 : SysState × RecoveryAction := handleError 1 0 emptyState "fz" "network error"
def c6s2 : SysState × RecoveryAction := handleError 2 0 c6s1.1 "fz" "network error"
def c6s3 : SysState × RecoveryAction := handleError 3 0 c6s2.1 "fz" "network error"
def c6s4 : SysState × RecoveryAction := handleError 4 0 c6s3.1 "fz" "network error"

theorem c6_categorize_network : categorizeError "network error" = "network" := by decide

theorem c6_retryable_network : isRetryableError "network error" "network" = true := by decide

/-- Claim C6 counterexample: four consecutive retryable (`network`) errors
for the same `fileId` with no new session in between produce
retry, retry, fail — and then a fourth `retry` action, because
`handleFinalFailure` deleted the retry record, so the terminal failure does
not stop further retries.  (Also, the fail comes after only 2 retries, and
the stored attempts counter is gone after the failure.) -/
theorem c6_counterexample :
    c6s1.2 = .retry 1000 1 3 "network" ∧
    c6s2.2 = .retry 2000 2 3 "network" ∧
    c6s3.2 = .failure 3 "network error"
      [{ error := "network error", etype := "network", timestamp := 1 },
       { error := "network error", etype := "network", timestamp := 2 },
       { error := "network error", etype := "network", timestamp := 3 }] ∧
    alookup "fz" c6s3.1.retryAttempts = none ∧
    c6s4.2 = .retry 1000 1 3 "network" := by
  norm_num [c6s1, c6s2, c6s3, c6s4, handleError, getRetryInfoState, emptyState,
    c6_categorize_network, c6_retryable_network, calculateBackoffDelay, baseDelay,
    maxDelay, jitterRate, maxRetries, handleUploadError, handleFinalFailure,
    getSessionStatus, alookup, aupdate, aremove]

/-- Claim C6 as amended: the stored attempts counter never exceeds
`maxRetries − 1 = 2` (it reaches `maxRetries = 3` only inside the returned
final-failure action), `handleError` declares a final failure exactly when
the error is non-retryable or the incremented counter reaches `maxRetries`
(so at most `maxRetries − 1` retry actions precede a fail), and the final
failure deletes the retry record of the fileId — so, contrary to the claim,
later retryable errors for the same fileId yield retry actions again
without any new session being created. -/
theorem c6_amended_retry_bound (now : Nat) (rand : ℚ) (st : SysState)
    (fileId errMsg : String)
    (hinv : ∀ p ∈ st.retryAttempts, p.2.attempts ≤ maxRetries - 1)
    (hnd : (st.retryAttempts.map Prod.fst).Nodup) :
    ((∃ a e hist, (handleError now rand st fileId errMsg).2 = .failure a e hist) ↔
      (isRetryableError errMsg (categorizeError errMsg) = false ∨
        maxRetries ≤ prevAttempts st fileId + 1)) ∧
    (∀ p ∈ (handleError now rand st fileId errMsg).1.retryAttempts,
      p.2.attempts ≤ maxRetries - 1) ∧
    ((isRetryableError errMsg (categorizeError errMsg) = false ∨
        maxRetries ≤ prevAttempts st fileId + 1) →
      alookup fileId (handleError now rand st fileId errMsg).1.retryAttempts = none) := by
  have hmr : maxRetries = 3 := rfl
  rcases hlo : alookup fileId st.retryAttempts with _ | info
  all_goals
    unfold handleError getRetryInfoState prevAttempts
    rw [hlo]
    dsimp only
  -- lookup miss: a fresh record with attempts 0 is inserted first
  · have hsem : (!isRetryableError errMsg (categorizeError errMsg)
        || decide (0 + 1 ≥ maxRetries)) = true ↔
        (isRetryableError errMsg (categorizeError errMsg) = false ∨
          maxRetries ≤ 0 + 1) := by
      simp [Bool.or_eq_true, Bool.not_eq_true', decide_eq_true_eq, ge_iff_le]
    by_cases hcond : (!isRetryableError errMsg (categorizeError errMsg)
        || decide (0 + 1 ≥ maxRetries)) = true
    · rw [if_pos hcond]
      refine ⟨⟨fun _ => hsem.mp hcond, fun _ => ?_⟩, ?_, fun _ => ?_⟩
      · unfold handleFinalFailure
        exact ⟨_, _, _, rfl⟩
      · unfold handleFinalFailure
        dsimp only
        rw [retryAttempts_handleUploadError, aupdate_aupdate]
        intro p hp
        exact hinv p (mem_aremove_aupdate hp)
      · unfold handleFinalFailure
        dsimp only
        rw [retryAttempts_handleUploadError, aupdate_aupdate]
        exact alookup_aremove_aupdate fileId _ st.retryAttempts hnd
    · rw [if_neg hcond]
      have hlt : 0 + 1 < maxRetries := by
        by_contra h3
        exact hcond (hsem.mpr (Or.inr (Nat.le_of_not_lt h3)))
      refine ⟨⟨fun hex => ?_, fun hx => absurd (hsem.mpr hx) hcond⟩, ?_, 
        fun hx => absurd (hsem.mpr hx) hcond⟩
      · obtain ⟨a, e, hist, heq⟩ := hex
        simp at heq
      · dsimp only
        rw [retryAttempts_handleUploadError, aupdate_aupdate]
        intro p hp
        rcases mem_aupdate hp with h | h
        · rw [h]
          dsimp only
          omega
        · exact hinv p h
  -- lookup hit: the stored record is mutated in place
  · have hsem : (!isRetryableError errMsg (categorizeError errMsg)
        || decide (info.attempts + 1 ≥ maxRetries)) = true ↔
        (isRetryableError errMsg (categorizeError errMsg) = false ∨
          maxRetries ≤ info.attempts + 1) := by
      simp [Bool.or_eq_true, Bool.not_eq_true', decide_eq_true_eq, ge_iff_le]
    by_cases hcond : (!isRetryableError errMsg (categorizeError errMsg)
        || decide (info.attempts + 1 ≥ maxRetries)) = true
    · rw [if_pos hcond]
      refine ⟨⟨fun _ => hsem.mp hcond, fun _ => ?_⟩, ?_, fun _ => ?_⟩
      · unfold handleFinalFailure
        exact ⟨_, _, _, rfl⟩
      · unfold handleFinalFailure
        dsimp only
        rw [retryAttempts_handleUploadError]
        intro p hp
        exact hinv p (mem_aremove_aupdate hp)
      · unfold handleFinalFailure
        dsimp only
        rw [retryAttempts_handleUploadError]
        exact alookup_aremove_aupdate fileId _ st.retryAttempts hnd
    · rw [if_neg hcond]
      have hlt : info.attempts + 1 < maxRetries := by
        by_contra h3
        exact hcond (hsem.mpr (Or.inr (Nat.le_of_not_lt h3)))
      refine ⟨⟨fun hex => ?_, fun hx => absurd (hsem.mpr hx) hcond⟩, ?_,
        fun hx => absurd (hsem.mpr hx) hcond⟩
      · obtain ⟨a, e, hist, heq⟩ := hex
        simp at heq
      · dsimp only
        rw [retryAttempts_handleUploadError]
        intro p hp
        rcases mem_aupdate hp with h | h
        · rw [h]
          dsimp only
          omega
        · exact hinv p h

/-- Witness for `c6_amended_retry_bound` on the empty registry and a
network error. -/
theorem c6_amended_retry_bound_witness :
    ((∃ a e hist, (handleError 7 0 emptyState "fw6" "network error").2
        = .failure a e hist) ↔
      (isRetryableError "network error" (categorizeError "network error") = false ∨
        maxRetries ≤ prevAttempts emptyState "fw6" + 1)) ∧
    (∀ p ∈ (handleError 7 0 emptyState "fw6" "network error").1.retryAttempts,
      p.2.attempts ≤ maxRetries - 1) ∧
    ((isRetryableError "network error" (categorizeError "network error") = false ∨
        maxRetries ≤ prevAttempts emptyState "fw6" + 1) →
      alookup "fw6" (handleError 7 0 emptyState "fw6" "network error").1.retryAttempts
        = none) :=
  c6_amended_retry_bound 7 0 emptyState "fw6" "network error"
    (by simp [emptyState]) (by simp [emptyState])

/-! ### Claim C5 -/

/-- The accumulator loop of `updateOverallProgress` computes exactly the
pair of sums of the spec formula. -/
theorem overallTotals_go (stages : List Stage) (a b : ℚ) :
    stages.foldl
      (fun acc stage =>
        (acc.1 + stage.weight,
         if stage.status = "completed" then acc.2 + stage.weight
         else if stage.status = "running" then acc.2 + stage.weight * stage.progress
         else acc.2))
      (a, b)
    = (a + (stages.map (fun s => s.weight)).sum,
       b + (stages.map (fun s => s.weight * specStageProgress s)).sum) := by
  induction stages generalizing a b with
  | nil => simp
  | cons hd tl ih =>
    simp only [List.foldl_cons, List.map_cons, List.sum_cons]
    by_cases h1 : hd.status = "completed"
    · have hsp : specStageProgress hd = 1 := by simp [specStageProgress, h1]
      rw [if_pos h1, ih, hsp, Prod.mk.injEq]
      constructor <;> ring
    · by_cases h2 : hd.status = "running"
      · have hsp : specStageProgress hd = hd.progress := by
          simp [specStageProgress, h1, h2]
        rw [if_neg h1, if_pos h2, ih, hsp, Prod.mk.injEq]
        constructor <;> ring
      · have hsp : specStageProgress hd = 0 := by simp [specStageProgress, h1, h2]
        rw [if_neg h1, if_neg h2, ih, hsp, Prod.mk.injEq]
        constructor <;> ring

theorem overallTotals_eq (stages : List Stage) :
    overallTotals stages
      = ((stages.map (fun s => s.weight)).sum,
         (stages.map (fun s => s.weight * specStageProgress s)).sum) := by
  unfold overallTotals
  rw [overallTotals_go]
  simp

/-- `updateOverallProgress` recomputes the aggregate from scratch as the
spec formula — it takes no max with the previous `overallProgress`. -/
theorem updateOverallProgress_eq (p : Pipeline) :
    updateOverallProgress p = { p with overallProgress := specOverall p.stages } := by
  unfold updateOverallProgress specOverall
  rw [overallTotals_eq]

/-- `getSessionStatus` does not look at the pipeline registry. -/
theorem getSessionStatus_set_pipelines (st : SysState) (x : List (String × Pipeline))
    (fileId : String) :
    getSessionStatus { st with pipelines := x } fileId = getSessionStatus st fileId := rfl

/-- A `broadcastToUser` of an `upload_progress` event appends exactly its
progress value to the emission trace of that file. -/
theorem progressEmissions_broadcast_progress (st : SysState) (u fileId : String)
    (p : ℚ) (stg : String) :
    progressEmissions (broadcastToUser st u (.uploadProgress fileId p stg)) fileId
      = progressEmissions st fileId ++ [p] := by
  simp [progressEmissions, broadcastToUser]

def c5p0 : SysState := startUploadSession 0 emptyState "g" "u"
  { metadata := {}, totalChunks := 3, chunkSize := chunkSize }
def c5p1 : SysState := initializePipeline 0 c5p0 "g" "u" {} []
def c5p2 : SysState := startStage 1 c5p1 "g" "upload"
def c5p3 : SysState := updateStageProgress 2 c5p2 "g" "upload" (1 / 2)
def c5p4 : SysState := updateStageProgress 3 c5p3 "g" "upload" (1 / 5)

/-- Claim C5 counterexample: after `startStage("upload")` and
`updateStageProgress("upload", 0.5)`, a further
`updateStageProgress("upload", 0.2)` emits `2/55 < 1/11` — the emitted
`overallProgress` sequence `[0, 0, 1/11, 2/55]` for `fileId "g"` decreases
although no error was emitted, because `updateOverallProgress` takes no max
with the previously emitted value. -/
theorem c5_counterexample :
    progressEmissions c5p4 "g" = [0, 0, 1 / 11, 2 / 55] ∧
    errorEmissions c5p4 "g" = [] ∧
    (2 / 55 : ℚ) < 1 / 11 := by
  simp [c5p4, c5p3, c5p2, c5p1, c5p0, startUploadSession, initializePipeline, startStage,
    updateStageProgress, updateProgress, updateOverallProgress, overallTotals,
    buildStageList, stagesTable, findStage, updateFirstStage, broadcastToUser,
    getSessionStatus, alookup, aupdate, emptyState, progressEmissions, errorEmissions,
    chunkSize]
  norm_num

/-- Claim C5 as amended: each `overallProgress` emitted by
`updateStageProgress` equals the weighted aggregate
`Σ wᵢ·pᵢ / Σ wᵢ` recomputed from scratch over the updated stage list
(clamped to `[0,1]` by `updateProgress`), independent of the previously
emitted value — no `max(previous, computed)` is applied, so the emitted
sequence can decrease while no error is set (see the counterexample). -/
theorem c5_amended_no_max (now : Nat) (st : SysState) (fileId stageName : String)
    (progress : ℚ) (pipeline : Pipeline) (stage : Stage) (s : SessionRec)
    (hp : alookup fileId st.pipelines = some pipeline)
    (hs : findStage stageName pipeline.stages = some stage)
    (hrun : stage.status = "running")
    (hsess : getSessionStatus st fileId = some s) :
    progressEmissions (updateStageProgress now st fileId stageName progress) fileId
      = progressEmissions st fileId ++
        [min 1 (max 0 (specOverall (updateFirstStage stageName
          (fun s2 => { s2 with progress := min 1 (max 0 progress) })
          pipeline.stages)))] := by
  unfold updateStageProgress
  rw [hp]
  dsimp only
  rw [hs]
  dsimp only
  rw [if_neg (by simp [hrun])]
  rw [updateOverallProgress_eq]
  unfold updateProgress
  rw [getSessionStatus_set_pipelines, hsess]
  dsimp only
  rw [progressEmissions_broadcast_progress]
  rfl

def c5w_stage : Stage :=
  { name := "upload", weight := 1 / 10, description := "File upload",
    status := "running", progress := 0 }
def c5w_pipeline : Pipeline :=
  { fileId := "gw", userId := "uw", metadata := {}, stages := [c5w_stage],
    currentStage := "upload", stageProgress := 0, overallProgress := 0,
    startTime := 0, stageStartTime := 0, stageHistory := [], errors := [],
    warnings := [] }
def c5w_session : SessionRec :=
  { userId := "uw", fileId := "gw", startTime := 0, status := "uploading",
    progress := 0, metadata := { metadata := {}, totalChunks := 0, chunkSize := 0 },
    chunks := [], totalChunks := 0, completedChunks := 0 }
def c5w_state : SysState :=
  { emptyState with
    pipelines := [("gw", c5w_pipeline)],
    uploadSessions := [("gw", c5w_session)] }

/-- Witness for `c5_amended_no_max` on a one-stage pipeline. -/
theorem c5_amended_no_max_witness :
    progressEmissions (updateStageProgress 1 c5w_state "gw" "upload" (1 / 2)) "gw"
      = progressEmissions c5w_state "gw" ++
        [min 1 (max 0 (specOverall (updateFirstStage "upload"
          (fun s2 => { s2 with progress := min 1 (max 0 (1 / 2)) })
          c5w_pipeline.stages)))] :=
  c5_amended_no_max 1 c5w_state "gw" "upload" (1 / 2) c5w_pipeline c5w_stage
    c5w_session (by rfl) (by rfl) (by rfl) (by rfl)

/-! ### Claim C4

The reachability invariant: every session record registered in
`uploadSessions` ever only has `totalChunks = 0` and undefined
`receivedChunks`/`chunkHashes`/`tempDir` (the shape `startUploadSession`
creates), because the only mutator of those fields (`updateChunkProgress`
via the success path of `uploadChunk`) is unreachable — `uploadChunk` always
fails on such a record. -/

def pristineRec (r : SessionRec) : Prop :=
  r.totalChunks = 0 ∧ r.receivedChunks = none ∧ r.tempDir = none ∧ r.chunkHashes = none

def sessionsPristine (st : SysState) : Prop :=
  ∀ p ∈ st.uploadSessions, pristineRec p.2

theorem pristine_aupdate_list {l : List (String × SessionRec)} {k : String}
    {r : SessionRec} (hl : ∀ p ∈ l, pristineRec p.2) (hr : pristineRec r) :
    ∀ p ∈ aupdate k r l, pristineRec p.2 := by
  intro p hp
  rcases mem_aupdate hp with h | h
  · rw [h]
    exact hr
  · exact hl p h

theorem pristine_broadcast {st : SysState} (u : String) (m : WsMessage)
    (h : sessionsPristine st) : sessionsPristine (broadcastToUser st u m) := by
  intro p hp
  exact h p hp

theorem pristine_updateProgress {st : SysState} (now : Nat) (fileId : String)
    (pr : ℚ) (stg : String) (h : sessionsPristine st) :
    sessionsPristine (updateProgress now st fileId pr stg) := by
  unfold updateProgress
  rcases hlo : getSessionStatus st fileId with _ | s
  · exact h
  · dsimp only
    apply pristine_broadcast
    apply pristine_aupdate_list h
    exact h _ (alookup_mem hlo)

theorem pristine_startUploadSession {st : SysState} (now : Nat)
    (fileId userId : String) (im : InitMeta) (h : sessionsPristine st) :
    sessionsPristine (startUploadSession now st fileId userId im) := by
  unfold startUploadSession
  apply pristine_broadcast
  apply pristine_aupdate_list h
  exact ⟨rfl, rfl, rfl, rfl⟩

theorem pristine_handleUploadError {st : SysState} (fileId errMsg : String)
    (retryable : Bool) (h : sessionsPristine st) :
    sessionsPristine (handleUploadError st fileId errMsg retryable) := by
  unfold handleUploadError
  rcases hlo : getSessionStatus st fileId with _ | s
  · exact h
  · dsimp only
    apply pristine_broadcast
    apply pristine_aupdate_list h
    exact h _ (alookup_mem hlo)

theorem pristine_completeUpload {st : SysState} (now : Nat)
    (fileId filePath : String) (size : Nat) (h : sessionsPristine st) :
    sessionsPristine (completeUpload now st fileId filePath size) := by
  unfold completeUpload
  rcases hlo : getSessionStatus st fileId with _ | s
  · exact h
  · dsimp only
    apply pristine_broadcast
    apply pristine_aupdate_list h
    exact h _ (alookup_mem hlo)

theorem pristine_initializeChunkedUpload {st : SysState} (now : Nat)
    (fileId userId : String) (md : Metadata) (h : sessionsPristine st) :
    sessionsPristine (initializeChunkedUpload now st fileId userId md).1 := by
  unfold initializeChunkedUpload
  by_cases hsz : md.size > chunkSize * maxChunks
  · rw [if_pos hsz]
    exact h
  · rw [if_neg hsz]
    exact pristine_startUploadSession now fileId userId _ h

/-- Under the invariant, `uploadChunk` always throws and leaves the state
unchanged: either the session is unknown, or the bus record has
`totalChunks = 0` and the index check rejects every index. -/
theorem uploadChunk_pristine {st : SysState} (hash : List Nat → String) (now : Nat)
    (fileId : String) (idx : Int) (data : List Nat) (ch : Option String)
    (h : sessionsPristine st) :
    ∃ e, uploadChunk hash now st fileId idx data ch = (st, .error e) := by
  rcases hlo : getSession st fileId with _ | r
  · refine ⟨.sessionNotFound, ?_⟩
    unfold uploadChunk
    rw [hlo]
  · refine ⟨.invalidChunkIndex, ?_⟩
    exact uploadChunk_totalChunks_zero hash now st fileId idx data ch r hlo
      (h _ (alookup_mem hlo)).1

/-- Under the invariant, `assembleFile` always throws and leaves the state
unchanged. -/
theorem assembleFile_pristine {st : SysState} (now : Nat)
    (fileId finalPath : String) (h : sessionsPristine st) :
    ∃ e, assembleFile now st fileId finalPath = (st, .error e) := by
  rcases hlo : getSession st fileId with _ | r
  · refine ⟨.sessionNotFound, ?_⟩
    unfold assembleFile
    rw [hlo]
  · refine ⟨.typeErrorUndefined "size", ?_⟩
    exact assembleFile_receivedChunks_undefined now st fileId finalPath r hlo
      (h _ (alookup_mem hlo)).2.1

theorem pristine_resumeUpload {st : SysState} (fileId : String)
    (h : sessionsPristine st) : sessionsPristine (resumeUpload st fileId).1 := by
  unfold resumeUpload
  rcases hlo : getSession st fileId with _ | r
  · exact h
  · dsimp only
    rcases hres : resumeFold st.fs r.tempDir (List.range r.totalChunks) []
        r.receivedChunks with e | pair
    · exact h
    · dsimp only
      obtain ⟨existing, received2⟩ := pair
      intro p hp
      rcases mem_aupdate hp with h2 | h2
      · rw [h2]
        have hr := h _ (alookup_mem hlo)
        have h0 : r.totalChunks = 0 := hr.1
        have hnone : r.receivedChunks = none := hr.2.1
        have : received2 = none := by
          rw [h0] at hres
          simp [List.range_zero, resumeFold, hnone] at hres
          exact hres.2.symm
        exact ⟨hr.1, this, hr.2.2.1, hr.2.2.2⟩
      · exact h p h2

theorem pristine_cleanupChunks {st : SysState} (session : SessionRec)
    (h : sessionsPristine st) : sessionsPristine (cleanupChunks st session) := by
  unfold cleanupChunks
  cases session.tempDir
  · exact h
  · intro p hp
    exact h p hp

theorem pristine_cancelUpload {st : SysState} (fileId : String)
    (h : sessionsPristine st) : sessionsPristine (cancelUpload st fileId) := by
  unfold cancelUpload
  rcases getSession st fileId with _ | r
  · exact h
  · exact pristine_handleUploadError _ _ _ (pristine_cleanupChunks _ h)

theorem pristine_getRetryInfoState {st : SysState} (now : Nat) (fileId : String)
    (h : sessionsPristine st) :
    sessionsPristine (getRetryInfoState now st fileId).1 := by
  unfold getRetryInfoState
  rcases alookup fileId st.retryAttempts with _ | info
  · intro p hp
    exact h p hp
  · exact h

theorem pristine_handleError {st : SysState} (now : Nat) (rand : ℚ)
    (fileId errMsg : String) (h : sessionsPristine st) :
    sessionsPristine (handleError now rand st fileId errMsg).1 := by
  unfold handleError handleFinalFailure
  dsimp only
  have h1 := pristine_getRetryInfoState now fileId h
  rw [apply_ite (fun x : SysState × RecoveryAction => x.1)]
  split
  · apply pristine_handleUploadError
    intro p hp
    exact h1 p hp
  · apply pristine_handleUploadError
    intro p hp
    exact h1 p hp

theorem pristine_initializePipeline {st : SysState} (now : Nat)
    (fileId userId : String) (md : Metadata) (req : List String)
    (h : sessionsPristine st) :
    sessionsPristine (initializePipeline now st fileId userId md req) := by
  unfold initializePipeline
  apply pristine_updateProgress
  intro p hp
  exact h p hp

theorem pristine_startStage {st : SysState} (now : Nat) (fileId stageName : String)
    (h : sessionsPristine st) : sessionsPristine (startStage now st fileId stageName) := by
  unfold startStage
  rcases alookup fileId st.pipelines with _ | pipeline
  · exact h
  · dsimp only
    rcases findStage stageName pipeline.stages with _ | stage
    · exact h
    · apply pristine_updateProgress
      intro p hp
      exact h p hp

theorem pristine_updateStageProgress {st : SysState} (now : Nat)
    (fileId stageName : String) (pr : ℚ) (h : sessionsPristine st) :
    sessionsPristine (updateStageProgress now st fileId stageName pr) := by
  unfold updateStageProgress
  rcases alookup fileId st.pipelines with _ | pipeline
  · exact h
  · dsimp only
    rcases findStage stageName pipeline.stages with _ | stage
    · exact h
    · dsimp only
      split
      · exact h
      · apply pristine_updateProgress
        intro p hp
        exact h p hp

theorem pristine_completeStage {st : SysState} (now : Nat)
    (fileId stageName : String) (h : sessionsPristine st) :
    sessionsPristine (completeStage now st fileId stageName) := by
  unfold completeStage
  rcases alookup fileId st.pipelines with _ | pipeline
  · exact h
  · dsimp only
    rcases findStage stageName pipeline.stages with _ | stage
    · exact h
    · apply pristine_updateProgress
      intro p hp
      exact h p hp

theorem pristine_stepOp {st : SysState} (hash : List Nat → String) (op : SysOp)
    (h : sessionsPristine st) : sessionsPristine (stepOp hash st op) := by
  cases op with
  | connect u s =>
    dsimp only [stepOp]
    intro p hp
    exact h p hp
  | closeConn u s =>
    dsimp only [stepOp]
    unfold closeConnection
    rcases alookup u st.clients with _ | sinks
    · exact h
    · dsimp only
      split
      · intro p hp
        exact h p hp
      · intro p hp
        exact h p hp
  | init now fileId userId metadata =>
    dsimp only [stepOp]
    rcases hinit : initializeChunkedUpload now st fileId userId metadata with ⟨st2, res⟩
    have h2 : sessionsPristine st2 := by
      have h3 := pristine_initializeChunkedUpload now fileId userId metadata h
      rw [hinit] at h3
      exact h3
    rcases res with e | sl
    · exact h2
    · exact pristine_initializePipeline _ _ _ _ _ h2
  | upload now rand fileId chunkIndex chunkData chunkHash =>
    dsimp only [stepOp]
    obtain ⟨e, he⟩ := uploadChunk_pristine hash now fileId chunkIndex chunkData chunkHash h
    rw [he]
    exact pristine_handleError now rand fileId (jsMessage e) h
  | resume fileId =>
    dsimp only [stepOp]
    exact pristine_resumeUpload fileId h
  | complete now rand fileId finalPath toolResource =>
    dsimp only [stepOp]
    have h1 := pristine_startStage now fileId "processing" h
    obtain ⟨e, he⟩ := assembleFile_pristine now fileId finalPath h1
    rw [he]
    exact pristine_handleError now rand fileId (jsMessage e) h1
  | cancel fileId =>
    dsimp only [stepOp]
    exact pristine_cancelUpload fileId h
  | validate fileId =>
    dsimp only [stepOp]
    exact h
  | recoveryHandle now rand fileId errMsg =>
    dsimp only [stepOp]
    exact pristine_handleError now rand fileId errMsg h
  | executeRetry now rand fileId chunkedUpload =>
    dsimp only [stepOp]
    have h1 := pristine_getRetryInfoState now fileId h
    have h2 := pristine_updateProgress now fileId 0 "retrying" h1
    rcases chunkedUpload with _ | _
    · rw [if_neg (by simp)]
      exact pristine_updateProgress now fileId 0 "retrying" h2
    · rw [if_pos rfl]
      rcases hres : resumeUpload (updateProgress now (getRetryInfoState now st fileId).1
          fileId 0 "retrying") fileId with ⟨st2, res⟩
      have h3 : sessionsPristine st2 := by
        have h4 := pristine_resumeUpload fileId h2
        rw [hres] at h4
        exact h4
      rcases res with e | info
      · exact pristine_handleError now rand fileId (jsMessage e) h3
      · dsimp only
        split
        · exact pristine_updateProgress now fileId info.progress "resuming" h3
        · exact h3
  | pipelineInit now fileId userId metadata requiredStages =>
    dsimp only [stepOp]
    exact pristine_initializePipeline now fileId userId metadata requiredStages h
  | stageStart now fileId stageName =>
    dsimp only [stepOp]
    exact pristine_startStage now fileId stageName h
  | stageUpdate now fileId stageName progress =>
    dsimp only [stepOp]
    exact pristine_updateStageProgress now fileId stageName progress h
  | stageComplete now fileId stageName =>
    dsimp only [stepOp]
    exact pristine_completeStage now fileId stageName h
  | deleteSession fileId =>
    dsimp only [stepOp]
    intro p hp
    exact h p (mem_aremove hp)
  | sweepSessions now =>
    dsimp only [stepOp]
    unfold cleanupOldSessions
    intro p hp
    exact h p (List.mem_of_mem_filter hp)

theorem pristine_runSys (hash : List Nat → String) (ops : List SysOp) :
    sessionsPristine (runSys hash ops emptyState) := by
  suffices h : ∀ st, sessionsPristine st → sessionsPristine (runSys hash ops st) by
    apply h
    intro p hp
    simp [emptyState] at hp
  induction ops with
  | nil => exact fun st h => h
  | cons op rest ih =>
    intro st h
    exact ih _ (pristine_stepOp hash op h)

/-- Claim C4 (code bug): the claim asserts idempotency of `uploadChunk`
after a successful first call, but in every state the system can reach from
its initial state — through any sequence of router, WebSocket, pipeline,
recovery and timer operations — `uploadChunk` never succeeds: the session
record `getSession` returns is the progress-bus record with
`totalChunks = 0`, so every call (first or repeated, any index, any bytes)
throws and leaves the state unchanged.  The premise of the claim ("after a
successful first call") is unsatisfiable and no `alreadyReceived = true`
response can ever be produced. -/
theorem c4_uploadChunk_never_succeeds (hash : List Nat → String) (ops : List SysOp)
    (now : Nat) (fileId : String) (chunkIndex : Int) (chunkData : List Nat)
    (chunkHash : Option String) :
    ∃ e, uploadChunk hash now (runSys hash ops emptyState) fileId chunkIndex
        chunkData chunkHash
      = (runSys hash ops emptyState, .error e) :=
  uploadChunk_pristine hash now fileId chunkIndex chunkData chunkHash
    (pristine_runSys hash ops)

/-! ### Claim C8

Fan-out isolation.  `Delivery.user` is, by construction of every
`broadcastToUser` call site, the owner of the event (the `userId` the
session stores, or the `userId` argument at session start), and a delivery
reaches only sockets registered under that key in `clients`.  The
invariant: if socket `s` is only ever registered under principal `A`, then
every delivery to `s` carries `user = A`. -/

/-- Socket `s` is registered, if at all, only under principal `A`. -/
def sinkOnlyFor (A : String) (s : Nat) (st : SysState) : Prop :=
  ∀ p ∈ st.clients, s ∈ p.2 → p.1 = A

/-- Every delivery so far to socket `s` was for principal `A`. -/
def deliveriesOk (A : String) (s : Nat) (st : SysState) : Prop :=
  ∀ d ∈ st.deliveries, d.sink = s → d.user = A

def busOk (A : String) (s : Nat) (st : SysState) : Prop :=
  sinkOnlyFor A s st ∧ deliveriesOk A s st

theorem busOk_same {A : String} {s : Nat} {st st2 : SysState}
    (h1 : st2.clients = st.clients) (h2 : st2.deliveries = st.deliveries)
    (h : busOk A s st) : busOk A s st2 := by
  constructor
  · intro p hp hm
    exact h.1 p (h1 ▸ hp) hm
  · intro d hd hs
    exact h.2 d (h2 ▸ hd) hs

theorem busOk_broadcast {A : String} {s : Nat} {st : SysState} (u : String)
    (m : WsMessage) (h : busOk A s st) : busOk A s (broadcastToUser st u m) := by
  constructor
  · intro p hp hm
    exact h.1 p hp hm
  · intro d hd hs
    unfold broadcastToUser at hd
    dsimp only at hd
    rw [List.mem_append] at hd
    rcases hd with hd | hd
    · exact h.2 d hd hs
    · rw [List.mem_map] at hd
      obtain ⟨s2, hs2, hd2⟩ := hd
      rcases hlo : alookup u st.clients with _ | sinks
      · rw [hlo] at hs2
        simp at hs2
      · rw [hlo] at hs2
        dsimp only [Option.getD] at hs2
        have hu : u = A := by
          apply h.1 (u, sinks) (alookup_mem hlo)
          rw [← hd2] at hs
          dsimp only at hs
          rw [hs] at hs2
          exact hs2
        rw [← hd2]
        exact hu ▸ rfl

theorem busOk_updateProgress {A : String} {s : Nat} {st : SysState} (now : Nat)
    (fileId : String) (pr : ℚ) (stg : String) (h : busOk A s st) :
    busOk A s (updateProgress now st fileId pr stg) := by
  unfold updateProgress
  rcases getSessionStatus st fileId with _ | sess
  · exact h
  · exact busOk_broadcast _ _ (busOk_same rfl rfl h)

theorem busOk_startUploadSession {A : String} {s : Nat} {st : SysState} (now : Nat)
    (fileId userId : String) (im : InitMeta) (h : busOk A s st) :
    busOk A s (startUploadSession now st fileId userId im) :=
  busOk_broadcast _ _ (busOk_same rfl rfl h)

theorem busOk_updateChunkProgress {A : String} {s : Nat} {st : SysState} (now : Nat)
    (fileId : String) (chunkIndex totalChunks : Nat) (completed : Bool)
    (h : busOk A s st) :
    busOk A s (updateChunkProgress now st fileId chunkIndex totalChunks completed) := by
  unfold updateChunkProgress
  rcases getSessionStatus st fileId with _ | sess
  · exact h
  · exact busOk_updateProgress _ _ _ _ (busOk_same rfl rfl h)

theorem busOk_completeUpload {A : String} {s : Nat} {st : SysState} (now : Nat)
    (fileId filePath : String) (size : Nat) (h : busOk A s st) :
    busOk A s (completeUpload now st fileId filePath size) := by
  unfold completeUpload
  rcases getSessionStatus st fileId with _ | sess
  · exact h
  · exact busOk_broadcast _ _ (busOk_same rfl rfl h)

theorem busOk_handleUploadError {A : String} {s : Nat} {st : SysState}
    (fileId errMsg : String) (retryable : Bool) (h : busOk A s st) :
    busOk A s (handleUploadError st fileId errMsg retryable) := by
  unfold handleUploadError
  rcases getSessionStatus st fileId with _ | sess
  · exact h
  · exact busOk_broadcast _ _ (busOk_same rfl rfl h)

theorem busOk_initializePipeline {A : String} {s : Nat} {st : SysState} (now : Nat)
    (fileId userId : String) (md : Metadata) (req : List String) (h : busOk A s st) :
    busOk A s (initializePipeline now st fileId userId md req) := by
  unfold initializePipeline
  exact busOk_updateProgress _ _ _ _ (busOk_same rfl rfl h)

theorem busOk_startStage {A : String} {s : Nat} {st : SysState} (now : Nat)
    (fileId stageName : String) (h : busOk A s st) :
    busOk A s (startStage now st fileId stageName) := by
  unfold startStage
  rcases alookup fileId st.pipelines with _ | pipeline
  · exact h
  · dsimp only
    rcases findStage stageName pipeline.stages with _ | stage
    · exact h
    · exact busOk_updateProgress _ _ _ _ (busOk_same rfl rfl h)

theorem busOk_updateStageProgress {A : String} {s : Nat} {st : SysState} (now : Nat)
    (fileId stageName : String) (pr : ℚ) (h : busOk A s st) :
    busOk A s (updateStageProgress now st fileId stageName pr) := by
  unfold updateStageProgress
  rcases alookup fileId st.pipelines with _ | pipeline
  · exact h
  · dsimp only
    rcases findStage stageName pipeline.stages with _ | stage
    · exact h
    · dsimp only
      split
      · exact h
      · exact busOk_updateProgress _ _ _ _ (busOk_same rfl rfl h)

theorem busOk_completeStage {A : String} {s : Nat} {st : SysState} (now : Nat)
    (fileId stageName : String) (h : busOk A s st) :
    busOk A s (completeStage now st fileId stageName) := by
  unfold completeStage
  rcases alookup fileId st.pipelines with _ | pipeline
  · exact h
  · dsimp only
    rcases findStage stageName pipeline.stages with _ | stage
    · exact h
    · exact busOk_updateProgress _ _ _ _ (busOk_same rfl rfl h)

theorem busOk_getRetryInfoState {A : String} {s : Nat} {st : SysState} (now : Nat)
    (fileId : String) (h : busOk A s st) :
    busOk A s (getRetryInfoState now st fileId).1 := by
  unfold getRetryInfoState
  rcases alookup fileId st.retryAttempts with _ | info
  · exact busOk_same rfl rfl h
  · exact h

theorem busOk_handleError {A : String} {s : Nat} {st : SysState} (now : Nat)
    (rand : ℚ) (fileId errMsg : String) (h : busOk A s st) :
    busOk A s (handleError now rand st fileId errMsg).1 := by
  unfold handleError handleFinalFailure
  dsimp only
  have h1 := busOk_getRetryInfoState now fileId h
  rw [apply_ite (fun x : SysState × RecoveryAction => x.1)]
  split
  · exact busOk_handleUploadError _ _ _ (busOk_same rfl rfl h1)
  · exact busOk_handleUploadError _ _ _ (busOk_same rfl rfl h1)

theorem busOk_initializeChunkedUpload {A : String} {s : Nat} {st : SysState}
    (now : Nat) (fileId userId : String) (md : Metadata) (h : busOk A s st) :
    busOk A s (initializeChunkedUpload now st fileId userId md).1 := by
  unfold initializeChunkedUpload
  by_cases hsz : md.size > chunkSize * maxChunks
  · rw [if_pos hsz]
    exact h
  · rw [if_neg hsz]
    exact busOk_startUploadSession now fileId userId _ h

theorem busOk_uploadChunk {A : String} {s : Nat} {st : SysState}
    (hash : List Nat → String) (now : Nat) (fileId : String) (idx : Int)
    (data : List Nat) (ch : Option String) (h : busOk A s st) :
    busOk A s (uploadChunk hash now st fileId idx data ch).1 := by
  unfold uploadChunk
  rcases getSession st fileId with _ | sess
  · exact h
  · dsimp only
    split
    · exact h
    · rcases sess.receivedChunks with _ | received
      · exact h
      · dsimp only
        split
        · exact h
        · split
          · exact h
          · rcases sess.tempDir with _ | dir
            · exact h
            · dsimp only
              rcases sess.chunkHashes with _ | hashes
              · exact busOk_same rfl rfl h
              · exact busOk_updateChunkProgress _ _ _ _ _
                  (busOk_same rfl rfl (busOk_same rfl rfl h))

theorem busOk_assembleFold {A : String} {s : Nat} (now : Nat) (fileId : String)
    (dir : Option String) (totalChunks : Nat) (idxs : List Nat) :
    ∀ (st : SysState) (acc : List Nat), busOk A s st →
      busOk A s (assembleFold now fileId dir totalChunks idxs st acc).1 := by
  induction idxs with
  | nil =>
    intro st acc h
    exact h
  | cons i rest ih =>
    intro st acc h
    unfold assembleFold
    rcases dir with _ | d
    · exact h
    · dsimp only
      rcases alookup (d ++ "/" ++ chunkFileName (i : Int)) st.fs with _ | chunkData
      · exact h
      · exact ih _ _ (busOk_updateProgress _ _ _ _ h)

theorem busOk_cleanupChunks {A : String} {s : Nat} {st : SysState}
    (session : SessionRec) (h : busOk A s st) :
    busOk A s (cleanupChunks st session) := by
  unfold cleanupChunks
  rcases session.tempDir with _ | dir
  · exact h
  · exact busOk_same rfl rfl h

theorem busOk_assembleFile {A : String} {s : Nat} {st : SysState} (now : Nat)
    (fileId finalPath : String) (h : busOk A s st) :
    busOk A s (assembleFile now st fileId finalPath).1 := by
  unfold assembleFile
  rcases getSession st fileId with _ | sess
  · exact h
  · dsimp only
    rcases sess.receivedChunks with _ | received
    · exact h
    · dsimp only
      split
      · exact h
      · rcases hfold : assembleFold now fileId sess.tempDir sess.totalChunks
            (List.range sess.totalChunks) st [] with ⟨st2, res⟩
        have h2 : busOk A s st2 := by
          have h3 := busOk_assembleFold now fileId sess.tempDir sess.totalChunks
            (List.range sess.totalChunks) st [] h
          rw [hfold] at h3
          exact h3
        rcases res with e | bytes
        · exact h2
        · dsimp only
          split
          · exact busOk_same rfl rfl h2
          · exact busOk_completeUpload _ _ _ _
              (busOk_cleanupChunks _ (busOk_same rfl rfl h2))

theorem busOk_resumeUpload {A : String} {s : Nat} {st : SysState} (fileId : String)
    (h : busOk A s st) : busOk A s (resumeUpload st fileId).1 := by
  unfold resumeUpload
  rcases getSession st fileId with _ | sess
  · exact h
  · dsimp only
    rcases resumeFold st.fs sess.tempDir (List.range sess.totalChunks) []
        sess.receivedChunks with e | pair
    · exact h
    · exact busOk_same rfl rfl h

theorem busOk_cancelUpload {A : String} {s : Nat} {st : SysState} (fileId : String)
    (h : busOk A s st) : busOk A s (cancelUpload st fileId) := by
  unfold cancelUpload
  rcases getSession st fileId with _ | sess
  · exact h
  · exact busOk_handleUploadError _ _ _ (busOk_cleanupChunks _ h)

/-- The only operation that can register socket `s` under a different
principal than `A`. -/
def connectsSinkElsewhere (s : Nat) (A : String) : SysOp → Bool
  | .connect u s2 => s2 == s && u != A
  | _ => false

theorem busOk_handleConnection {A : String} {s : Nat} {st : SysState}
    (u : String) (snk : Nat) (hop : snk = s → u = A) (h : busOk A s st) :
    busOk A s (handleConnection st u snk) := by
  constructor
  · intro p hp hm
    unfold handleConnection at hp
    dsimp only at hp
    rcases mem_aupdate hp with h2 | h2
    · rw [h2] at hm ⊢
      dsimp only at hm ⊢
      rw [List.mem_append] at hm
      rcases hm with hm | hm
      · rcases hlo : alookup u st.clients with _ | sinks
        · rw [hlo] at hm
          simp at hm
        · rw [hlo] at hm
          exact h.1 (u, sinks) (alookup_mem hlo) hm
      · rw [List.mem_singleton] at hm
        exact hop hm.symm
    · exact h.1 p h2 hm
  · intro d hd hs
    exact h.2 d hd hs

theorem busOk_closeConnection {A : String} {s : Nat} {st : SysState}
    (u : String) (snk : Nat) (h : busOk A s st) :
    busOk A s (closeConnection st u snk) := by
  unfold closeConnection
  rcases hlo : alookup u st.clients with _ | sinks
  · exact h
  · dsimp only
    split
    · constructor
      · intro p hp hm
        exact h.1 p (mem_aremove hp) hm
      · intro d hd hs
        exact h.2 d hd hs
    · constructor
      · intro p hp hm
        rcases mem_aupdate hp with h2 | h2
        · rw [h2] at hm ⊢
          dsimp only at hm ⊢
          apply h.1 (u, sinks) (alookup_mem hlo)
          exact List.mem_of_mem_filter hm
        · exact h.1 p h2 hm
      · intro d hd hs
        exact h.2 d hd hs

theorem busOk_stepOp {A : String} {s : Nat} {st : SysState}
    (hash : List Nat → String) (op : SysOp)
    (hop : connectsSinkElsewhere s A op = false) (h : busOk A s st) :
    busOk A s (stepOp hash st op) := by
  cases op with
  | connect u snk =>
    dsimp only [stepOp]
    apply busOk_handleConnection u snk _ h
    intro hsnk
    unfold connectsSinkElsewhere at hop
    rw [hsnk] at hop
    simp at hop
    exact hop
  | closeConn u snk =>
    dsimp only [stepOp]
    exact busOk_closeConnection u snk h
  | init now fileId userId metadata =>
    dsimp only [stepOp]
    rcases hinit : initializeChunkedUpload now st fileId userId metadata with ⟨st2, res⟩
    have h2 : busOk A s st2 := by
      have h3 := busOk_initializeChunkedUpload now fileId userId metadata h
      rw [hinit] at h3
      exact h3
    rcases res with e | sl
    · exact h2
    · exact busOk_initializePipeline _ _ _ _ _ h2
  | upload now rand fileId chunkIndex chunkData chunkHash =>
    dsimp only [stepOp]
    rcases hup : uploadChunk hash now st fileId chunkIndex chunkData chunkHash
        with ⟨st2, res⟩
    have h2 : busOk A s st2 := by
      have h3 := busOk_uploadChunk hash now fileId chunkIndex chunkData chunkHash h
      rw [hup] at h3
      exact h3
    rcases res with e | r
    · exact busOk_handleError _ _ _ _ h2
    · exact h2
  | resume fileId =>
    dsimp only [stepOp]
    exact busOk_resumeUpload fileId h
  | complete now rand fileId finalPath toolResource =>
    dsimp only [stepOp]
    have h1 := busOk_startStage now fileId "processing" h
    rcases hasm : assembleFile now (startStage now st fileId "processing")
        fileId finalPath with ⟨st2, res⟩
    have h2 : busOk A s st2 := by
      have h3 := busOk_assembleFile now fileId finalPath h1
      rw [hasm] at h3
      exact h3
    rcases res with e | r
    · exact busOk_handleError _ _ _ _ h2
    · dsimp only
      have h4 := busOk_completeStage now fileId "processing" h2
      split
      · exact busOk_startStage _ _ _ h4
      · split
        · exact busOk_startStage _ _ _ h4
        · exact h4
  | cancel fileId =>
    dsimp only [stepOp]
    exact busOk_cancelUpload fileId h
  | validate fileId =>
    dsimp only [stepOp]
    exact h
  | recoveryHandle now rand fileId errMsg =>
    dsimp only [stepOp]
    exact busOk_handleError _ _ _ _ h
  | executeRetry now rand fileId chunkedUpload =>
    dsimp only [stepOp]
    have h1 := busOk_getRetryInfoState now fileId h
    have h2 := busOk_updateProgress now fileId 0 "retrying" h1
    rcases chunkedUpload with _ | _
    · rw [if_neg (by simp)]
      exact busOk_updateProgress now fileId 0 "retrying" h2
    · rw [if_pos rfl]
      rcases hres : resumeUpload (updateProgress now (getRetryInfoState now st fileId).1
          fileId 0 "retrying") fileId with ⟨st2, res⟩
      have h3 : busOk A s st2 := by
        have h4 := busOk_resumeUpload fileId h2
        rw [hres] at h4
        exact h4
      rcases res with e | info
      · exact busOk_handleError _ _ _ _ h3
      · dsimp only
        split
        · exact busOk_updateProgress _ _ _ _ h3
        · exact h3
  | pipelineInit now fileId userId metadata requiredStages =>
    dsimp only [stepOp]
    exact busOk_initializePipeline _ _ _ _ _ h
  | stageStart now fileId stageName =>
    dsimp only [stepOp]
    exact busOk_startStage _ _ _ h
  | stageUpdate now fileId stageName progress =>
    dsimp only [stepOp]
    exact busOk_updateStageProgress _ _ _ _ h
  | stageComplete now fileId stageName =>
    dsimp only [stepOp]
    exact busOk_completeStage _ _ _ h
  | deleteSession fileId =>
    dsimp only [stepOp]
    exact busOk_same rfl rfl h
  | sweepSessions now =>
    dsimp only [stepOp]
    unfold cleanupOldSessions
    exact busOk_same rfl rfl h

/-- Claim C8: fan-out isolation.  If socket `s` is only ever connected for
principal `A` (no operation in the run registers it under anyone else),
then in the state reached from the initial state every delivery made to
socket `s` carries `user = A`: a subscriber connection for principal `A`
never receives an event of a session owned by a different principal, since
every `broadcastToUser` call site passes the `userId` of the owning session as
the `user` of the deliveries it makes. -/
theorem c8_fanout_isolation (hash : List Nat → String) (ops : List SysOp)
    (s : Nat) (A : String)
    (hops : ∀ op ∈ ops, connectsSinkElsewhere s A op = false) :
    ∀ d ∈ (runSys hash ops emptyState).deliveries, d.sink = s → d.user = A := by
  have key : ∀ (ops2 : List SysOp) (st : SysState),
      (∀ op ∈ ops2, connectsSinkElsewhere s A op = false) →
      busOk A s st → busOk A s (runSys hash ops2 st) := by
    intro ops2
    induction ops2 with
    | nil =>
      intro st _ h
      exact h
    | cons op rest ih =>
      intro st hops2 h
      exact ih _ (fun o ho => hops2 o (List.mem_cons_of_mem _ ho))
        (busOk_stepOp hash op (hops2 op (List.mem_cons_self op rest)) h)
  have h2 := key ops emptyState hops (by
    constructor
    · intro p hp
      simp [emptyState] at hp
    · intro d hd
      simp [emptyState] at hd)
  exact h2.2

def c8w_ops : List SysOp :=
  [.connect "alice" 0, .connect "bob" 1,
   .init 5 "f8" "bob" { size := 5 },
   .init 6 "f8a" "alice" { size := 5 }]

/-- Witness for `c8_fanout_isolation`: with Alice on socket 0 and Bob on
socket 1, two sessions started (one per principal), every delivery made to
socket 0 is for Alice. -/
theorem c8_fanout_isolation_witness :
    ((runSys (fun _ => "h8") c8w_ops emptyState).deliveries.all
      (fun d => !(d.sink == 0) || (d.user == "alice"))) = true := by
  have hmain := c8_fanout_isolation (fun _ => "h8") c8w_ops 0 "alice" (by decide)
  apply List.all_eq_true.mpr
  intro d hd
  by_cases hs : d.sink = 0
  · have h2 := hmain d hd hs
    simp [h2, hs]
  · simp [hs]

end Ain
